import Mathlib

/-!
Verification of the usage-polling and policy-reconciliation engine
(`backend/scheduler.py`, function `_poll_once`) of the wgmik-server
repository, as a shallow embedding in Lean 4.

Modelling conventions:
* Byte counters coming from the device (`rx_bytes`, `tx_bytes`) are `Nat`
  (they are non-negative integers in the source).  Traffic deltas and
  rollup accumulators are `Int`, so that the subtraction
  `current - previous` of the source is translated without truncation.
* Timestamps are abstract instants (`Int`): `nowUtc` is the value stored
  in `ts` columns, `nowLocal` is the value compared against access-window
  bounds.  `datetime.fromisoformat` (a standard-library call, not
  repository code) is abstracted as a parameter
  `parseTs : String → Option Int`; a parse failure (the `except` branch
  of the source) is `none`.
* SQLAlchemy tables are lists kept in insertion order.  `first()` on a
  filtered query is `List.find?`; `order_by(ts.desc()).first()` is the
  last element of the filtered list (timestamps are monotone across
  cycles and equal within a cycle, where insertion order is the
  tiebreak); in-place mutation of the first matching row is `updFirst`.
* A `set_peer_disabled` device call is one element popped from a list of
  outcomes `List (Option String)`: `none` is success, `some e` is an
  exception whose text `e` is what the source logs as the note
  (`f"{e}"`).  An empty outcome list means every call succeeds.
-/

namespace WgMik

/-- `WGPeer` from `routeros/client_base.py`: a live peer snapshot. -/
structure WGPeer where
  ros_id : String
  interface : String
  name : String
  public_key : String
  allowed_address : String
  disabled : Bool
  rx_bytes : Nat
  tx_bytes : Nat
  last_handshake : Option Nat
  endpoint : String
deriving DecidableEq

/-- `Peer` row from `models.py`. -/
structure Peer where
  id : Nat
  router_id : Nat
  interface : String
  ros_id : String
  name : String
  public_key : String
  allowed_address : String
  comment : String
  disabled : Bool
  selected : Bool
deriving DecidableEq

/-- `UsageSample` row from `models.py`. -/
structure UsageSample where
  peer_id : Nat
  ts : Int
  rx : Nat
  tx : Nat
  endpoint : String
deriving DecidableEq

/-- `UsageDaily` row from `models.py` (`day` is a `YYYY-MM-DD` key). -/
structure UsageDaily where
  peer_id : Nat
  day : String
  rx : Int
  tx : Int
deriving DecidableEq

/-- `UsageMonthly` row from `models.py` (`month_key` is `YYYY-MM`). -/
structure UsageMonthly where
  peer_id : Nat
  month_key : String
  rx : Int
  tx : Int
deriving DecidableEq

/-- `Quota` row from `models.py`. -/
structure Quota where
  peer_id : Nat
  monthly_limit_bytes : Int
  reset_day : Nat
deriving DecidableEq

/-- `Action` row from `models.py`: append-only audit record. -/
structure Action where
  peer_id : Nat
  ts : Int
  action : String
  note : String
deriving DecidableEq

/-- The database state touched by `_poll_once`.  `kv` is the
`SettingsKV` table as key/value pairs. -/
structure DB where
  peers : List Peer
  samples : List UsageSample
  daily : List UsageDaily
  monthly : List UsageMonthly
  quotas : List Quota
  actions : List Action
  kv : List (String × String)
deriving DecidableEq

/-- The per-cycle time context of `_poll_once` lines 20-28: `now_utc`
(as stored in `ts`), `now_local` (compared against window bounds), and
the `strftime` keys. -/
structure Clock where
  nowUtc : Int
  nowLocal : Int
  dayKey : String
  monthKey : String
deriving DecidableEq

/-- `month_prefix = now_utc.strftime("%Y-%m-")`, which always equals the
`"%Y-%m"` key followed by `"-"`. -/
def Clock.monthPfx (c : Clock) : String := c.monthKey ++ "-"

/-- `LIKE 'p%'`: the string `s` starts with `p` (character list check). -/
def listStarts : List Char → List Char → Bool
  | [], _ => true
  | _ :: _, [] => false
  | a :: as, b :: bs => a == b && listStarts as bs

/-- String version of `listStarts`, used for `UsageDaily.day.like(f"{month_prefix}%")`. -/
def strStarts (p s : String) : Bool := listStarts p.data s.data

/-- Update the first list element satisfying `p` (in-place ORM mutation
of the row returned by `.first()`). -/
def updFirst (p : α → Bool) (f : α → α) : List α → List α
  | [] => []
  | x :: xs => if p x then f x :: xs else x :: updFirst p f xs

/-- `db.query(UsageSample).filter(peer_id).order_by(ts.desc()).first()`. -/
def lastSample (db : DB) (pid : Nat) : Option UsageSample :=
  (db.samples.filter (fun s => s.peer_id == pid)).getLast?

/-- `db.query(Action).filter(peer_id).order_by(ts.desc()).first()`. -/
def lastAction (db : DB) (pid : Nat) : Option Action :=
  (db.actions.filter (fun a => a.peer_id == pid)).getLast?

/-- `db.query(UsageDaily).filter(peer_id, day).first()`. -/
def findDaily (db : DB) (pid : Nat) (day : String) : Option UsageDaily :=
  db.daily.find? (fun r => r.peer_id == pid && r.day == day)

/-- `db.query(UsageMonthly).filter(peer_id, month_key).first()`. -/
def findMonthly (db : DB) (pid : Nat) (mk : String) : Option UsageMonthly :=
  db.monthly.find? (fun m => m.peer_id == pid && m.month_key == mk)

/-- `db.query(Quota).filter(peer_id).first()`. -/
def findQuota (db : DB) (pid : Nat) : Option Quota :=
  db.quotas.find? (fun q => q.peer_id == pid)

/-- `db.get(SettingsKV, key)`, returning the stored value. -/
def kvGet (db : DB) (k : String) : Option String :=
  (db.kv.find? (fun e => e.1 == k)).map (fun e => e.2)

/-- `db.add(Action(...))`. -/
def addAction (db : DB) (pid : Nat) (ts : Int) (act note : String) : DB :=
  { db with actions := db.actions ++ [⟨pid, ts, act, note⟩] }

/-- One `set_peer_disabled` outcome: pop the next result (success when
the outcome list is exhausted). -/
def popDev : List (Option String) → Option String × List (Option String)
  | [] => (none, [])
  | r :: rest => (r, rest)

/-- Delta of one counter, `scheduler.py` lines 131-139: if the current
value is below the previous one the counter reset and the current value
itself is the delta, otherwise the difference is. -/
def deltaOf (prev cur : Nat) : Int :=
  if cur < prev then (cur : Int) else (cur : Int) - (prev : Int)

/-- The Delta Calculator, `scheduler.py` lines 125-140: given the
previous sample (if any) and the current counters, the rx/tx deltas and
whether a reset was detected.  With no previous sample both deltas are
`0` (baseline). -/
def computeDeltas (last : Option UsageSample) (rxB txB : Nat) : Int × Int × Bool :=
  match last with
  | none => (0, 0, false)
  | some s => (deltaOf s.rx rxB, deltaOf s.tx txB, decide (rxB < s.rx) || decide (txB < s.tx))

/-- The `counter_reset` note of `scheduler.py` line 146. -/
def resetNote (prevRx prevTx rxB txB : Nat) : String :=
  "Detected counter reset: rx " ++ toString prevRx ++ "->" ++ toString rxB ++
    ", tx " ++ toString prevTx ++ "->" ++ toString txB

/-- State threaded through the processing of one peer: the shared
database, the peer row being mutated, and the pending device-call
outcomes. -/
structure PState where
  db : DB
  peer : Peer
  dev : List (Option String)
deriving DecidableEq

/-- `ros_id` reconciliation, `scheduler.py` lines 76-87. -/
def syncRos (c : Clock) (lp : WGPeer) (st : PState) : PState :=
  if lp.ros_id != "" && st.peer.ros_id != lp.ros_id then
    { st with peer := { st.peer with ros_id := lp.ros_id },
              db := addAction st.db st.peer.id c.nowUtc "router_update"
                ("Updated ros_id from router: " ++ lp.ros_id) }
  else st

/-- `name` sync, `scheduler.py` lines 90-91. -/
def syncName (lp : WGPeer) (st : PState) : PState :=
  if lp.name != st.peer.name then
    { st with peer := { st.peer with name := lp.name } }
  else st

/-- `allowed_address` sync, `scheduler.py` lines 92-93. -/
def syncAddr (lp : WGPeer) (st : PState) : PState :=
  if lp.allowed_address != st.peer.allowed_address then
    { st with peer := { st.peer with allowed_address := lp.allowed_address } }
  else st

/-- Disabled-state adoption from the device, `scheduler.py` lines
95-105. -/
def syncDisabled (c : Clock) (lp : WGPeer) (st : PState) : PState :=
  if st.peer.disabled != lp.disabled then
    { st with peer := { st.peer with disabled := lp.disabled },
              db := addAction st.db st.peer.id c.nowUtc
                (if lp.disabled then "router_disable" else "router_enable")
                "Detected router state change during poll" }
  else st

/-- Router-state reconciliation, `scheduler.py` lines 76-105: sync
`ros_id` (logging `router_update`), `name`, `allowed_address`, and adopt
the device's `disabled` value (logging `router_disable`/`router_enable`)
when they differ from the snapshot. -/
def syncPhase (c : Clock) (lp : WGPeer) (st : PState) : PState :=
  syncDisabled c lp (syncAddr lp (syncName lp (syncRos c lp st)))

/-- Sample recording and delta computation, `scheduler.py` lines
107-148: read the previous sample, append the raw sample, compute the
deltas, and log `counter_reset` when a reset was detected.  Returns the
new state together with `(delta_rx, delta_tx)`. -/
def samplePhase (c : Clock) (lp : WGPeer) (st : PState) : PState × Int × Int :=
  let last := lastSample st.db st.peer.id
  let db :=
    { st.db with samples := st.db.samples ++
        [⟨st.peer.id, c.nowUtc, lp.rx_bytes, lp.tx_bytes, lp.endpoint⟩] }
  let d := computeDeltas last lp.rx_bytes lp.tx_bytes
  let db :=
    if d.2.2 then
      match last with
      | some s => addAction db st.peer.id c.nowUtc "counter_reset"
          (resetNote s.rx s.tx lp.rx_bytes lp.tx_bytes)
      | none => db
    else db
  ({ st with db := db }, d.1, d.2.1)

/-- `UsageDaily` upsert, `scheduler.py` lines 157-168. -/
def upsertDaily (pid : Nat) (dayKey : String) (drx dtx : Int) (db : DB) : DB :=
  match findDaily db pid dayKey with
  | none => { db with daily := db.daily ++ [⟨pid, dayKey, drx, dtx⟩] }
  | some _ =>
      let d := updFirst (fun r => r.peer_id == pid && r.day == dayKey)
        (fun r => { r with rx := r.rx + drx, tx := r.tx + dtx }) db.daily
      { db with daily := d }

/-- `UsageMonthly` upsert, `scheduler.py` lines 170-176. -/
def upsertMonthly (pid : Nat) (monthKey : String) (drx dtx : Int) (db : DB) : DB :=
  match findMonthly db pid monthKey with
  | none => { db with monthly := db.monthly ++ [⟨pid, monthKey, drx, dtx⟩] }
  | some _ =>
      let m := updFirst (fun m => m.peer_id == pid && m.month_key == monthKey)
        (fun m => { m with rx := m.rx + drx, tx := m.tx + dtx }) db.monthly
      { db with monthly := m }

/-- The Rollup Aggregator, `scheduler.py` lines 149-176: when at least
one delta is nonzero, upsert the `UsageDaily` row keyed by the day and
the `UsageMonthly` row keyed by the month, adding the deltas. -/
def rollupUpd (pid : Nat) (dayKey monthKey : String) (drx dtx : Int) (db : DB) : DB :=
  if drx != 0 || dtx != 0 then
    upsertMonthly pid monthKey drx dtx (upsertDaily pid dayKey drx dtx db)
  else db

/-- The daily-rollup fallback sum of `month_total_bytes`, `scheduler.py`
lines 182-194: rx and tx summed over the `UsageDaily` rows of the peer
whose `day` matches `LIKE 'YYYY-MM-%'`. -/
def dailyMonthSum (db : DB) (pid : Nat) (mpfx : String) : Int :=
  ((db.daily.filter (fun r => r.peer_id == pid && strStarts mpfx r.day)).map UsageDaily.rx).sum
    + ((db.daily.filter (fun r => r.peer_id == pid && strStarts mpfx r.day)).map UsageDaily.tx).sum

/-- `month_total_bytes`, `scheduler.py` lines 178-194: the current-month
total for the peer, read from its `UsageMonthly` row when one exists,
else summed from its `UsageDaily` rows of the current month. -/
def month_total_bytes (db : DB) (pid : Nat) (mk mpfx : String) : Int :=
  match findMonthly db pid mk with
  | some m => m.rx + m.tx
  | none => dailyMonthSum db pid mpfx

/-- The over-quota test of `scheduler.py` lines 197-201: a `Quota` row
exists, its limit is positive (Python truthiness plus `> 0`), and the
month total reaches the limit. -/
def overQuotaB (db : DB) (pid : Nat) (mk mpfx : String) : Bool :=
  match findQuota db pid with
  | some q => q.monthly_limit_bytes != 0 && q.monthly_limit_bytes > 0 &&
      month_total_bytes db pid mk mpfx ≥ q.monthly_limit_bytes
  | none => false

/-- Quota enforcement, `scheduler.py` lines 196-235: disable a peer that
is over quota and currently enabled, through the device when it has a
`ros_id` (flipping local state only on success, logging
`quota_disable_failed` on failure), directly otherwise.  Returns the new
state and the `over_quota` flag. -/
def quotaPhase (c : Clock) (st : PState) : PState × Bool :=
  let over := overQuotaB st.db st.peer.id c.monthKey c.monthPfx
  let total := month_total_bytes st.db st.peer.id c.monthKey c.monthPfx
  let limit := match findQuota st.db st.peer.id with
    | some q => q.monthly_limit_bytes
    | none => 0
  if over && !st.peer.disabled then
    if st.peer.ros_id != "" then
      match popDev st.dev with
      | (none, dev) =>
          ({ db := addAction st.db st.peer.id c.nowUtc "quota_disable"
               ("Auto-disabled: used=" ++ toString total ++ " limit=" ++ toString limit),
             peer := { st.peer with disabled := true }, dev := dev }, over)
      | (some e, dev) =>
          ({ st with db := addAction st.db st.peer.id c.nowUtc "quota_disable_failed" e,
                     dev := dev }, over)
    else
      ({ st with peer := { st.peer with disabled := true },
                 db := addAction st.db st.peer.id c.nowUtc "quota_disable"
                   ("Auto-disabled (no ros_id): used=" ++ toString total ++
                     " limit=" ++ toString limit) }, over)
  else (st, over)

/-- Window-bound evaluation, `scheduler.py` lines 238-253: read the two
`SettingsKV` entries for the peer and parse each into an instant; a
missing row, an empty value, or an unparseable value yields `none`. -/
def windowBounds (db : DB) (pid : Nat) (parseTs : String → Option Int) :
    Option Int × Option Int :=
  let vf := kvGet db ("quota_valid_from:" ++ toString pid)
  let vu := kvGet db ("quota_valid_until:" ++ toString pid)
  (match vf with
   | some v => if v != "" then parseTs v else none
   | none => none,
   match vu with
   | some v => if v != "" then parseTs v else none
   | none => none)

/-- `inside_window` of `scheduler.py` lines 254-258. -/
def insideWindowB (nowLocal : Int) (ws we : Option Int) : Bool :=
  (match ws with | some s => !decide (nowLocal < s) | none => true) &&
    (match we with | some e => !decide (nowLocal > e) | none => true)

/-- The `window_disable` note of `scheduler.py` line 271. -/
def windowNote (db : DB) (pid : Nat) : String :=
  let vf := kvGet db ("quota_valid_from:" ++ toString pid)
  let vu := kvGet db ("quota_valid_until:" ++ toString pid)
  "Auto-disabled outside access window (" ++ vf.getD "" ++ " - " ++ vu.getD "" ++ ")"

/-- Access-window enforcement, `scheduler.py` lines 237-292: when at
least one bound is configured, the current local time is outside the
window and the peer is enabled, disable it (through the device when it
has a `ros_id`, logging `window_disable_failed` on failure).  Returns
the new state and the `inside_window` flag. -/
def windowPhase (c : Clock) (parseTs : String → Option Int) (st : PState) :
    PState × Bool :=
  let b := windowBounds st.db st.peer.id parseTs
  let inside := insideWindowB c.nowLocal b.1 b.2
  if (b.1.isSome || b.2.isSome) && !inside && !st.peer.disabled then
    if st.peer.ros_id != "" then
      match popDev st.dev with
      | (none, dev) =>
          ({ db := addAction st.db st.peer.id c.nowUtc "window_disable"
               (windowNote st.db st.peer.id),
             peer := { st.peer with disabled := true }, dev := dev }, inside)
      | (some e, dev) =>
          ({ st with db := addAction st.db st.peer.id c.nowUtc "window_disable_failed" e,
                     dev := dev }, inside)
    else
      ({ st with peer := { st.peer with disabled := true },
                 db := addAction st.db st.peer.id c.nowUtc "window_disable"
                   "Auto-disabled outside access window (no ros_id)" }, inside)
  else (st, inside)

/-- Auto re-enable, `scheduler.py` lines 294-314: a disabled peer whose
quota and window conditions are satisfied is re-enabled only when the
most recent `Action` recorded for it is `window_disable` or
`quota_disable` (through the device when it has a `ros_id`, logging
`<kind>_failed` on failure). -/
def enablePhase (c : Clock) (over inside : Bool) (st : PState) : PState :=
  if st.peer.disabled && !over && inside then
    match lastAction st.db st.peer.id with
    | some a =>
        if a.action == "window_disable" || a.action == "quota_disable" then
          let enact := if a.action == "window_disable" then "window_enable" else "quota_enable"
          let ennote := if a.action == "window_disable" then "Auto-enabled: inside access window"
            else "Auto-enabled: not over quota"
          if st.peer.ros_id != "" then
            match popDev st.dev with
            | (none, dev) =>
                { db := addAction st.db st.peer.id c.nowUtc enact ennote,
                  peer := { st.peer with disabled := false }, dev := dev }
            | (some e, dev) =>
                { st with db := addAction st.db st.peer.id c.nowUtc (enact ++ "_failed") e,
                          dev := dev }
          else
            { st with peer := { st.peer with disabled := false },
                      db := addAction st.db st.peer.id c.nowUtc enact
                        (ennote ++ " (no ros_id)") }
        else st
    | none => st
  else st

/-- The sync, sample and rollup phases composed: the state right before
quota enforcement. -/
def afterRollup (c : Clock) (lp : WGPeer) (st : PState) : PState :=
  let st1 := syncPhase c lp st
  let r := samplePhase c lp st1
  { r.1 with db := rollupUpd r.1.peer.id c.dayKey c.monthKey r.2.1 r.2.2 r.1.db }

/-- Processing of one peer found in the live snapshot, `scheduler.py`
lines 76-314. -/
def processFound (c : Clock) (parseTs : String → Option Int) (lp : WGPeer)
    (st : PState) : PState :=
  let stR := afterRollup c lp st
  let q := quotaPhase c stR
  let w := windowPhase c parseTs q.1
  enablePhase c q.2 w.2 w.1

/-- `live_by_pub` lookup, `scheduler.py` line 58: the dict comprehension
keeps the last snapshot for a duplicated public key. -/
def liveByPub (live : List WGPeer) (pk : String) : Option WGPeer :=
  (live.filter (fun lp => lp.public_key == pk)).getLast?

/-- Processing of one peer of a group, `scheduler.py` lines 60-314: a
peer missing from the live snapshot is unselected and logged as
`router_missing`; a present peer goes through the full pipeline. -/
def processPeer (c : Clock) (parseTs : String → Option Int) (rid : Nat)
    (iface : String) (live : List WGPeer) (st : PState) : PState :=
  match liveByPub live st.peer.public_key with
  | none =>
      if st.peer.selected then
        { st with
          peer := { st.peer with selected := false },
          db := addAction st.db st.peer.id c.nowUtc "router_missing"
            ("Peer not found on router " ++ toString rid ++ " iface=" ++ iface ++
              "; unselected") }
      else st
  | some lp => processFound c parseTs lp st

/-- One `(router_id, interface)` group of a cycle: the grouped peers
(from the initial `selected == True` query), whether the `Router` row
was found, and the outcome of `make_client` + `list_wireguard_peers`
(`none` models the exception caught at `scheduler.py` lines 54-56). -/
structure CycleGroup where
  router_id : Nat
  iface : String
  routerFound : Bool
  listResult : Option (List WGPeer)
  peers : List Peer
deriving DecidableEq

/-- Process one peer and write the mutated row back into the `peers`
table. -/
def processPeerRow (c : Clock) (parseTs : String → Option Int) (rid : Nat)
    (iface : String) (live : List WGPeer) (acc : DB × List (Option String))
    (p : Peer) : DB × List (Option String) :=
  let st := processPeer c parseTs rid iface live ⟨acc.1, p, acc.2⟩
  ({ st.db with peers := updFirst (fun q => q.id == p.id) (fun _ => st.peer) st.db.peers },
   st.dev)

/-- Processing of one group, `scheduler.py` lines 44-314: a missing
`Router` row or a failed `list_wireguard_peers` skips the whole group. -/
def processGroup (c : Clock) (parseTs : String → Option Int) (g : CycleGroup)
    (acc : DB × List (Option String)) : DB × List (Option String) :=
  if !g.routerFound then acc
  else
    match g.listResult with
    | none => acc
    | some live => g.peers.foldl (processPeerRow c parseTs g.router_id g.iface live) acc

/-- One full reconciliation cycle over its groups, `scheduler.py`
`_poll_once`: the returned database is what the single commit at line
316 persists. -/
def pollOnce (c : Clock) (parseTs : String → Option Int) (groups : List CycleGroup)
    (db : DB) (dev : List (Option String)) : DB × List (Option String) :=
  groups.foldl (fun acc g => processGroup c parseTs g acc) (db, dev)

/-! ### Concrete fixtures used for examples and witnesses -/

/-- A live snapshot of the fixture peer with a given rx counter. -/
def exLp (rxB : Nat) : WGPeer :=
  ⟨"*A", "wg0", "n", "PK", "10.0.0.2/32", false, rxB, 0, none, "1.2.3.4:5"⟩

/-- The fixture peer row. -/
def exPeer : Peer := ⟨1, 1, "wg0", "*A", "n", "PK", "10.0.0.2/32", "", false, true⟩

/-- A fixture database holding only the fixture peer. -/
def exDB : DB := ⟨[exPeer], [], [], [], [], [], []⟩

/-- A fixture clock at abstract instant `t` inside January 2025. -/
def exClock (t : Int) : Clock := ⟨t, t, "2025-01-01", "2025-01"⟩

/-- First poll of the reset example: rx counter 1000. -/
def exStep1 : PState × Int × Int :=
  samplePhase (exClock 0) (exLp 1000) ⟨exDB, exPeer, []⟩

/-- Second poll of the reset example: rx counter 1200. -/
def exStep2 : PState × Int × Int := samplePhase (exClock 1) (exLp 1200) exStep1.1

/-- Third poll of the reset example: rx counter 300 (reset). -/
def exStep3 : PState × Int × Int := samplePhase (exClock 2) (exLp 300) exStep2.1

/-! ### C1 -/

/-- C1: the Delta Calculator yields, for rx and tx independently, delta `0`
when no previous sample exists, `current - previous` when
`current ≥ previous`, and `current` when `current < previous`, in which case
a `counter_reset` Action noting the old and new values is appended to the
action log; every computed delta is non-negative; and the successive rx
samples 1000, 1200, 300 of the fixture peer yield rx deltas 0, 200, 300. -/
theorem C1_delta_calculator :
    (∀ rxB txB, computeDeltas none rxB txB = (0, 0, false))
    ∧ (∀ (s : UsageSample) (rxB txB : Nat), s.rx ≤ rxB →
        (computeDeltas (some s) rxB txB).1 = (rxB : Int) - (s.rx : Int))
    ∧ (∀ (s : UsageSample) (rxB txB : Nat), s.tx ≤ txB →
        (computeDeltas (some s) rxB txB).2.1 = (txB : Int) - (s.tx : Int))
    ∧ (∀ (s : UsageSample) (rxB txB : Nat), rxB < s.rx →
        (computeDeltas (some s) rxB txB).1 = (rxB : Int))
    ∧ (∀ (s : UsageSample) (rxB txB : Nat), txB < s.tx →
        (computeDeltas (some s) rxB txB).2.1 = (txB : Int))
    ∧ (∀ (last : Option UsageSample) (rxB txB : Nat),
        0 ≤ (computeDeltas last rxB txB).1 ∧ 0 ≤ (computeDeltas last rxB txB).2.1)
    ∧ (∀ (c : Clock) (lp : WGPeer) (st : PState) (s : UsageSample),
        lastSample st.db st.peer.id = some s →
        lp.rx_bytes < s.rx ∨ lp.tx_bytes < s.tx →
        (samplePhase c lp st).1.db.actions = st.db.actions ++
          [⟨st.peer.id, c.nowUtc, "counter_reset",
            resetNote s.rx s.tx lp.rx_bytes lp.tx_bytes⟩])
    ∧ (exStep1.2.1 = 0 ∧ exStep2.2.1 = 200 ∧ exStep3.2.1 = 300
        ∧ exStep3.1.db.actions = [⟨1, 2, "counter_reset", resetNote 1200 0 300 0⟩]) := by
  refine ⟨fun rxB txB => rfl, ?_, ?_, ?_, ?_, ?_, ?_, by decide⟩
  · intro s rxB txB h
    simp [computeDeltas, deltaOf, Nat.not_lt.mpr h]
  · intro s rxB txB h
    simp [computeDeltas, deltaOf, Nat.not_lt.mpr h]
  · intro s rxB txB h
    simp [computeDeltas, deltaOf, h]
  · intro s rxB txB h
    simp [computeDeltas, deltaOf, h]
  · intro last rxB txB
    cases last with
    | none => exact ⟨le_refl 0, le_refl 0⟩
    | some s =>
        constructor <;> · simp only [computeDeltas, deltaOf]
                          split
                          · exact Int.ofNat_nonneg _
                          · omega
  · intro c lp st s hlast hres
    have hflag : (decide (lp.rx_bytes < s.rx) || decide (lp.tx_bytes < s.tx)) = true := by
      rcases hres with h | h <;> simp [h]
    simp [samplePhase, hlast, computeDeltas, hflag, addAction]

/-- Witness for C1: the theorem applied at concrete inputs. -/
theorem C1_delta_calculator_witness :
    (computeDeltas (some ⟨1, 0, 500, 400, ""⟩) 700 900).1 = 200
    ∧ (computeDeltas (some ⟨1, 0, 500, 400, ""⟩) 200 900).1 = 200 := by
  constructor
  · exact C1_delta_calculator.2.1 ⟨1, 0, 500, 400, ""⟩ 700 900 (by decide)
  · exact C1_delta_calculator.2.2.2.1 ⟨1, 0, 500, 400, ""⟩ 200 900 (by decide)

/-! ### Frame lemmas for the sample phase -/

theorem samplePhase_fst_peer (c : Clock) (lp : WGPeer) (st : PState) :
    (samplePhase c lp st).1.peer = st.peer := rfl

theorem samplePhase_fst_dev (c : Clock) (lp : WGPeer) (st : PState) :
    (samplePhase c lp st).1.dev = st.dev := rfl

theorem samplePhase_snd (c : Clock) (lp : WGPeer) (st : PState) :
    (samplePhase c lp st).2 =
      ((computeDeltas (lastSample st.db st.peer.id) lp.rx_bytes lp.tx_bytes).1,
        (computeDeltas (lastSample st.db st.peer.id) lp.rx_bytes lp.tx_bytes).2.1) := rfl

theorem samplePhase_fst_db_samples (c : Clock) (lp : WGPeer) (st : PState) :
    (samplePhase c lp st).1.db.samples = st.db.samples ++
      [⟨st.peer.id, c.nowUtc, lp.rx_bytes, lp.tx_bytes, lp.endpoint⟩] := by
  simp only [samplePhase]
  split
  · split <;> simp [addAction]
  · rfl

theorem samplePhase_fst_db_frame (c : Clock) (lp : WGPeer) (st : PState) :
    (samplePhase c lp st).1.db.daily = st.db.daily
    ∧ (samplePhase c lp st).1.db.monthly = st.db.monthly
    ∧ (samplePhase c lp st).1.db.quotas = st.db.quotas
    ∧ (samplePhase c lp st).1.db.kv = st.db.kv
    ∧ (samplePhase c lp st).1.db.peers = st.db.peers := by
  simp only [samplePhase]
  split
  · split <;> simp [addAction]
  · exact ⟨rfl, rfl, rfl, rfl, rfl⟩

theorem samplePhase_fst_db_actions_of_no_reset (c : Clock) (lp : WGPeer) (st : PState)
    (h : (computeDeltas (lastSample st.db st.peer.id) lp.rx_bytes lp.tx_bytes).2.2 = false) :
    (samplePhase c lp st).1.db.actions = st.db.actions := by
  simp [samplePhase, h]

/-! ### C6 -/

/-- The sequence of per-cycle deltas of one counter chained through
successive polls, starting from a previous value. -/
def chainDeltas : Nat → List Nat → List Int
  | _, [] => []
  | prev, cur :: rest => deltaOf prev cur :: chainDeltas cur rest

/-- The per-cycle deltas of one counter over a whole observation
sequence: the first poll has no previous sample and yields `0`. -/
def seqDeltas : List Nat → List Int
  | [] => []
  | c0 :: rest => 0 :: chainDeltas c0 rest

theorem chainDeltas_sum (l : List Nat) : ∀ (prev : Nat),
    List.Chain (· ≤ ·) prev l →
    (chainDeltas prev l).sum = (l.getLastD prev : Int) - (prev : Int) := by
  induction l with
  | nil => intro prev _; simp [chainDeltas]
  | cons cur rest ih =>
      intro prev h
      cases h with
      | cons hpc hrest =>
          simp only [chainDeltas, List.sum_cons, List.getLastD_cons]
          rw [ih cur hrest]
          unfold deltaOf
          rw [if_neg (Nat.not_lt.mpr hpc)]
          ring

/-- The rx-delta sequence produced by actually polling the fixture peer
with the given rx counters through the sample phase, one cycle after
another (each cycle reads the sample appended by the previous one). -/
def runRx (st : PState) (t : Int) : List Nat → List Int
  | [] => []
  | rxB :: rest =>
      let r := samplePhase ⟨t, t, "d", "m"⟩ (exLp rxB) st
      r.2.1 :: runRx r.1 (t + 1) rest

theorem lastSample_after_append (db : DB) (s : UsageSample) :
    lastSample { db with samples := db.samples ++ [s] } s.peer_id = some s := by
  unfold lastSample
  simp [List.filter_append, List.getLast?_concat]

theorem runRx_eq_chainDeltas (l : List Nat) : ∀ (st : PState) (t : Int) (s : UsageSample),
    lastSample st.db st.peer.id = some s →
    runRx st t l = chainDeltas s.rx l := by
  induction l with
  | nil => intro st t s _; rfl
  | cons cur rest ih =>
      intro st t s hlast
      simp only [runRx, chainDeltas, samplePhase_snd, hlast, computeDeltas,
        List.cons.injEq, true_and]
      refine ⟨rfl, ?_⟩
      have hpeer := samplePhase_fst_peer ⟨t, t, "d", "m"⟩ (exLp cur) st
      have hs := samplePhase_fst_db_samples ⟨t, t, "d", "m"⟩ (exLp cur) st
      have hlast2 : lastSample (samplePhase ⟨t, t, "d", "m"⟩ (exLp cur) st).1.db
          (samplePhase ⟨t, t, "d", "m"⟩ (exLp cur) st).1.peer.id =
          some ⟨st.peer.id, t, cur, 0, (exLp cur).endpoint⟩ := by
        rw [hpeer]
        unfold lastSample
        rw [hs]
        simp [exLp, List.filter_append, List.getLast?_concat]
      exact ih _ (t + 1) _ hlast2

theorem runRx_eq_seqDeltas (st : PState) (t : Int) (l : List Nat)
    (hnone : lastSample st.db st.peer.id = none) :
    runRx st t l = seqDeltas l := by
  cases l with
  | nil => rfl
  | cons c0 rest =>
      simp only [runRx, seqDeltas, samplePhase_snd, hnone, computeDeltas,
        List.cons.injEq, true_and]
      have hlast2 : lastSample (samplePhase ⟨t, t, "d", "m"⟩ (exLp c0) st).1.db
          (samplePhase ⟨t, t, "d", "m"⟩ (exLp c0) st).1.peer.id =
          some ⟨st.peer.id, t, c0, 0, (exLp c0).endpoint⟩ := by
        rw [samplePhase_fst_peer]
        unfold lastSample
        rw [samplePhase_fst_db_samples]
        simp [exLp, List.filter_append, List.getLast?_concat]
      exact runRx_eq_chainDeltas rest _ (t + 1) _ hlast2

/-- C6: over any run of successive polls whose rx counters are
non-decreasing, the per-cycle deltas computed by the delta logic (the
first poll being a baseline with delta `0`) sum to the final counter
value minus the initial one. -/
theorem C6_delta_monotonicity (st : PState) (t : Int) (c0 : Nat) (rest : List Nat)
    (hnone : lastSample st.db st.peer.id = none)
    (hmono : List.Chain (· ≤ ·) c0 rest) :
    (runRx st t (c0 :: rest)).sum = ((c0 :: rest).getLastD 0 : Int) - (c0 : Int) := by
  rw [runRx_eq_seqDeltas st t _ hnone]
  simp only [seqDeltas, List.sum_cons, List.getLastD_cons]
  rw [chainDeltas_sum rest c0 hmono]
  ring

/-- Witness for C6: polling the fixture peer with rx counters
1000, 1200, 1250 sums the deltas to 250 = 1250 - 1000. -/
theorem C6_delta_monotonicity_witness :
    (runRx ⟨exDB, exPeer, []⟩ 0 [1000, 1200, 1250]).sum = (1250 : Int) - 1000 := by
  have h := C6_delta_monotonicity ⟨exDB, exPeer, []⟩ 0 1000 [1200, 1250] (by decide)
    (List.Chain.cons (by decide) (List.Chain.cons (by decide) List.Chain.nil))
  simpa using h

/-! ### Frame lemmas for the remaining phases -/

theorem syncRos_frame (c : Clock) (lp : WGPeer) (st : PState) :
    (syncRos c lp st).db.samples = st.db.samples
    ∧ (syncRos c lp st).db.daily = st.db.daily
    ∧ (syncRos c lp st).db.monthly = st.db.monthly
    ∧ (syncRos c lp st).db.quotas = st.db.quotas
    ∧ (syncRos c lp st).db.kv = st.db.kv
    ∧ (syncRos c lp st).db.peers = st.db.peers
    ∧ (syncRos c lp st).peer.id = st.peer.id
    ∧ (syncRos c lp st).peer.disabled = st.peer.disabled
    ∧ (syncRos c lp st).peer.selected = st.peer.selected
    ∧ (syncRos c lp st).peer.interface = st.peer.interface
    ∧ (syncRos c lp st).dev = st.dev := by
  unfold syncRos
  split <;> simp [addAction]

theorem syncRos_of_match (c : Clock) (lp : WGPeer) (st : PState)
    (h : lp.ros_id = "" ∨ st.peer.ros_id = lp.ros_id) :
    syncRos c lp st = st := by
  unfold syncRos
  rcases h with h | h <;> simp [h]

theorem syncName_frame (lp : WGPeer) (st : PState) :
    (syncName lp st).db = st.db
    ∧ (syncName lp st).dev = st.dev
    ∧ (syncName lp st).peer.id = st.peer.id
    ∧ (syncName lp st).peer.disabled = st.peer.disabled
    ∧ (syncName lp st).peer.ros_id = st.peer.ros_id
    ∧ (syncName lp st).peer.selected = st.peer.selected
    ∧ (syncName lp st).peer.interface = st.peer.interface := by
  unfold syncName
  split <;> simp

theorem syncAddr_frame (lp : WGPeer) (st : PState) :
    (syncAddr lp st).db = st.db
    ∧ (syncAddr lp st).dev = st.dev
    ∧ (syncAddr lp st).peer.id = st.peer.id
    ∧ (syncAddr lp st).peer.disabled = st.peer.disabled
    ∧ (syncAddr lp st).peer.ros_id = st.peer.ros_id
    ∧ (syncAddr lp st).peer.selected = st.peer.selected
    ∧ (syncAddr lp st).peer.interface = st.peer.interface := by
  unfold syncAddr
  split <;> simp

theorem syncDisabled_frame (c : Clock) (lp : WGPeer) (st : PState) :
    (syncDisabled c lp st).db.samples = st.db.samples
    ∧ (syncDisabled c lp st).db.daily = st.db.daily
    ∧ (syncDisabled c lp st).db.monthly = st.db.monthly
    ∧ (syncDisabled c lp st).db.quotas = st.db.quotas
    ∧ (syncDisabled c lp st).db.kv = st.db.kv
    ∧ (syncDisabled c lp st).db.peers = st.db.peers
    ∧ (syncDisabled c lp st).peer.id = st.peer.id
    ∧ (syncDisabled c lp st).peer.disabled = lp.disabled
    ∧ (syncDisabled c lp st).peer.ros_id = st.peer.ros_id
    ∧ (syncDisabled c lp st).peer.selected = st.peer.selected
    ∧ (syncDisabled c lp st).peer.interface = st.peer.interface
    ∧ (syncDisabled c lp st).dev = st.dev := by
  unfold syncDisabled
  split
  · simp [addAction]
  · next h =>
      have h2 : st.peer.disabled = lp.disabled := by
        by_contra hne
        exact h (by simpa using hne)
      simp [h2]

theorem syncDisabled_of_match (c : Clock) (lp : WGPeer) (st : PState)
    (h : st.peer.disabled = lp.disabled) :
    syncDisabled c lp st = st := by
  unfold syncDisabled
  simp [h]

theorem syncPhase_frame (c : Clock) (lp : WGPeer) (st : PState) :
    (syncPhase c lp st).db.samples = st.db.samples
    ∧ (syncPhase c lp st).db.daily = st.db.daily
    ∧ (syncPhase c lp st).db.monthly = st.db.monthly
    ∧ (syncPhase c lp st).db.quotas = st.db.quotas
    ∧ (syncPhase c lp st).db.kv = st.db.kv
    ∧ (syncPhase c lp st).db.peers = st.db.peers
    ∧ (syncPhase c lp st).peer.id = st.peer.id
    ∧ (syncPhase c lp st).peer.disabled = lp.disabled
    ∧ (syncPhase c lp st).peer.selected = st.peer.selected
    ∧ (syncPhase c lp st).peer.interface = st.peer.interface
    ∧ (syncPhase c lp st).dev = st.dev := by
  unfold syncPhase
  obtain ⟨r1, r2, r3, r4, r5, r6, r7, r8, r9, r10, r11⟩ := syncRos_frame c lp st
  obtain ⟨n1, n2, n3, n4, n5, n6, n7⟩ := syncName_frame lp (syncRos c lp st)
  obtain ⟨a1, a2, a3, a4, a5, a6, a7⟩ :=
    syncAddr_frame lp (syncName lp (syncRos c lp st))
  obtain ⟨d1, d2, d3, d4, d5, d6, d7, d8, d9, d10, d11, d12⟩ :=
    syncDisabled_frame c lp (syncAddr lp (syncName lp (syncRos c lp st)))
  refine ⟨?_, ?_, ?_, ?_, ?_, ?_, ?_, d8, ?_, ?_, ?_⟩ <;>
    simp [d1, d2, d3, d4, d5, d6, d7, d9, d10, d11, d12, a1, a2, a3, a4, a6, a7,
      n1, n2, n3, n6, n7, r1, r2, r3, r4, r5, r6, r7, r9, r10, r11]

theorem upsertDaily_frame (pid : Nat) (dk : String) (drx dtx : Int) (db : DB) :
    (upsertDaily pid dk drx dtx db).samples = db.samples
    ∧ (upsertDaily pid dk drx dtx db).monthly = db.monthly
    ∧ (upsertDaily pid dk drx dtx db).actions = db.actions
    ∧ (upsertDaily pid dk drx dtx db).quotas = db.quotas
    ∧ (upsertDaily pid dk drx dtx db).kv = db.kv
    ∧ (upsertDaily pid dk drx dtx db).peers = db.peers := by
  unfold upsertDaily
  split <;> simp

theorem upsertMonthly_frame (pid : Nat) (mk : String) (drx dtx : Int) (db : DB) :
    (upsertMonthly pid mk drx dtx db).samples = db.samples
    ∧ (upsertMonthly pid mk drx dtx db).daily = db.daily
    ∧ (upsertMonthly pid mk drx dtx db).actions = db.actions
    ∧ (upsertMonthly pid mk drx dtx db).quotas = db.quotas
    ∧ (upsertMonthly pid mk drx dtx db).kv = db.kv
    ∧ (upsertMonthly pid mk drx dtx db).peers = db.peers := by
  unfold upsertMonthly
  split <;> simp

theorem rollupUpd_frame (pid : Nat) (dk mk : String) (drx dtx : Int) (db : DB) :
    (rollupUpd pid dk mk drx dtx db).samples = db.samples
    ∧ (rollupUpd pid dk mk drx dtx db).actions = db.actions
    ∧ (rollupUpd pid dk mk drx dtx db).quotas = db.quotas
    ∧ (rollupUpd pid dk mk drx dtx db).kv = db.kv
    ∧ (rollupUpd pid dk mk drx dtx db).peers = db.peers := by
  unfold rollupUpd
  split
  · obtain ⟨d1, d2, d3, d4, d5, d6⟩ := upsertDaily_frame pid dk drx dtx db
    obtain ⟨m1, m2, m3, m4, m5, m6⟩ :=
      upsertMonthly_frame pid mk drx dtx (upsertDaily pid dk drx dtx db)
    exact ⟨m1.trans d1, m3.trans d3, m4.trans d4, m5.trans d5, m6.trans d6⟩
  · exact ⟨rfl, rfl, rfl, rfl, rfl⟩

theorem rollupUpd_zero (pid : Nat) (dk mk : String) (db : DB) :
    rollupUpd pid dk mk 0 0 db = db := by
  simp [rollupUpd]

theorem quotaPhase_frame (c : Clock) (st : PState) :
    (quotaPhase c st).1.db.samples = st.db.samples
    ∧ (quotaPhase c st).1.db.daily = st.db.daily
    ∧ (quotaPhase c st).1.db.monthly = st.db.monthly
    ∧ (quotaPhase c st).1.db.quotas = st.db.quotas
    ∧ (quotaPhase c st).1.db.kv = st.db.kv
    ∧ (quotaPhase c st).1.db.peers = st.db.peers
    ∧ (quotaPhase c st).1.peer.id = st.peer.id
    ∧ (quotaPhase c st).1.peer.ros_id = st.peer.ros_id
    ∧ (quotaPhase c st).1.peer.selected = st.peer.selected
    ∧ (quotaPhase c st).1.peer.interface = st.peer.interface := by
  simp only [quotaPhase]
  split
  · split
    · split <;> simp [addAction]
    · simp [addAction]
  · simp

theorem windowPhase_frame (c : Clock) (pt : String → Option Int) (st : PState) :
    (windowPhase c pt st).1.db.samples = st.db.samples
    ∧ (windowPhase c pt st).1.db.daily = st.db.daily
    ∧ (windowPhase c pt st).1.db.monthly = st.db.monthly
    ∧ (windowPhase c pt st).1.db.quotas = st.db.quotas
    ∧ (windowPhase c pt st).1.db.kv = st.db.kv
    ∧ (windowPhase c pt st).1.db.peers = st.db.peers
    ∧ (windowPhase c pt st).1.peer.id = st.peer.id
    ∧ (windowPhase c pt st).1.peer.ros_id = st.peer.ros_id
    ∧ (windowPhase c pt st).1.peer.selected = st.peer.selected
    ∧ (windowPhase c pt st).1.peer.interface = st.peer.interface := by
  simp only [windowPhase]
  split
  · split
    · split <;> simp [addAction]
    · simp [addAction]
  · simp

theorem enablePhase_frame (c : Clock) (over inside : Bool) (st : PState) :
    (enablePhase c over inside st).db.samples = st.db.samples
    ∧ (enablePhase c over inside st).db.daily = st.db.daily
    ∧ (enablePhase c over inside st).db.monthly = st.db.monthly
    ∧ (enablePhase c over inside st).db.quotas = st.db.quotas
    ∧ (enablePhase c over inside st).db.kv = st.db.kv
    ∧ (enablePhase c over inside st).db.peers = st.db.peers
    ∧ (enablePhase c over inside st).peer.id = st.peer.id
    ∧ (enablePhase c over inside st).peer.ros_id = st.peer.ros_id
    ∧ (enablePhase c over inside st).peer.selected = st.peer.selected
    ∧ (enablePhase c over inside st).peer.interface = st.peer.interface := by
  simp only [enablePhase]
  split
  · split
    · split
      · split
        · split <;> simp [addAction]
        · simp [addAction]
      · simp
    · simp
  · simp

/-! ### C7 -/

theorem lastSample_congr (db db' : DB) (pid pid' : Nat)
    (hs : db.samples = db'.samples) (hp : pid = pid') :
    lastSample db pid = lastSample db' pid' := by
  unfold lastSample
  rw [hs, hp]

/-- C7: when both computed deltas of a poll are zero, the full per-peer
pipeline leaves the daily and monthly rollup tables untouched (no row
created, no row modified), while the raw sample is still appended. -/
theorem C7_zero_delta_frame (c : Clock) (pt : String → Option Int) (lp : WGPeer)
    (st : PState)
    (h1 : (computeDeltas (lastSample st.db st.peer.id) lp.rx_bytes lp.tx_bytes).1 = 0)
    (h2 : (computeDeltas (lastSample st.db st.peer.id) lp.rx_bytes lp.tx_bytes).2.1 = 0) :
    (processFound c pt lp st).db.daily = st.db.daily
    ∧ (processFound c pt lp st).db.monthly = st.db.monthly
    ∧ (processFound c pt lp st).db.samples =
        st.db.samples ++ [⟨st.peer.id, c.nowUtc, lp.rx_bytes, lp.tx_bytes, lp.endpoint⟩] := by
  obtain ⟨s1, s2, s3, s4, s5, s6, s7, s8, s9, s10, s11⟩ := syncPhase_frame c lp st
  have hlast : lastSample (syncPhase c lp st).db (syncPhase c lp st).peer.id =
      lastSample st.db st.peer.id := lastSample_congr _ _ _ _ s1 s7
  have hsnd := samplePhase_snd c lp (syncPhase c lp st)
  have hd1 : (samplePhase c lp (syncPhase c lp st)).2.1 = 0 := by
    rw [hsnd]; rw [hlast]; exact h1
  have hd2 : (samplePhase c lp (syncPhase c lp st)).2.2 = 0 := by
    rw [hsnd]; rw [hlast]; exact h2
  have hAR : afterRollup c lp st = (samplePhase c lp (syncPhase c lp st)).1 := by
    simp only [afterRollup]
    rw [hd1, hd2, rollupUpd_zero]
  obtain ⟨f1, f2, f3, f4, f5⟩ := samplePhase_fst_db_frame c lp (syncPhase c lp st)
  have hsamp := samplePhase_fst_db_samples c lp (syncPhase c lp st)
  obtain ⟨q1, q2, q3, q4, q5, q6, q7, q8, q9, q10⟩ :=
    quotaPhase_frame c (afterRollup c lp st)
  obtain ⟨w1, w2, w3, w4, w5, w6, w7, w8, w9, w10⟩ :=
    windowPhase_frame c pt (quotaPhase c (afterRollup c lp st)).1
  obtain ⟨e1, e2, e3, e4, e5, e6, e7, e8, e9, e10⟩ :=
    enablePhase_frame c (quotaPhase c (afterRollup c lp st)).2
      (windowPhase c pt (quotaPhase c (afterRollup c lp st)).1).2
      (windowPhase c pt (quotaPhase c (afterRollup c lp st)).1).1
  unfold processFound
  refine ⟨?_, ?_, ?_⟩
  · rw [e2, w2, q2, hAR, f1, s2]
  · rw [e3, w3, q3, hAR, f2, s3]
  · rw [e1, w1, q1, hAR, hsamp, s1, s7]

/-- Witness for C7: a poll of the fixture peer with counters unchanged
since the previous sample creates no rollup rows and appends the raw
sample. -/
theorem C7_zero_delta_frame_witness :
    (processFound (exClock 5) (fun _ => none) (exLp 1000)
        ⟨{ exDB with samples := [⟨1, 0, 1000, 0, "1.2.3.4:5"⟩] }, exPeer, []⟩).db.daily = []
    ∧ (processFound (exClock 5) (fun _ => none) (exLp 1000)
        ⟨{ exDB with samples := [⟨1, 0, 1000, 0, "1.2.3.4:5"⟩] }, exPeer, []⟩).db.monthly = []
    ∧ (processFound (exClock 5) (fun _ => none) (exLp 1000)
        ⟨{ exDB with samples := [⟨1, 0, 1000, 0, "1.2.3.4:5"⟩] }, exPeer, []⟩).db.samples =
        [⟨1, 0, 1000, 0, "1.2.3.4:5"⟩] ++ [⟨1, 5, 1000, 0, "1.2.3.4:5"⟩] := by
  have h := C7_zero_delta_frame (exClock 5) (fun _ => none) (exLp 1000)
    ⟨{ exDB with samples := [⟨1, 0, 1000, 0, "1.2.3.4:5"⟩] }, exPeer, []⟩
    (by decide) (by decide)
  exact h

/-! ### C5 -/

/-- C5: when a `set_peer_disabled` device call fails during quota
enforcement, window enforcement, or auto re-enable, the peer's local
`disabled` flag (and everything else in the database) is left unchanged
except for exactly one appended Action of the matching `*_failed` kind
(`quota_disable_failed`, `window_disable_failed`, `quota_enable_failed`
or `window_enable_failed`), carrying the exception text. -/
theorem C5_failed_actions :
    (∀ (c : Clock) (st : PState) (e : String) (rest : List (Option String)),
      overQuotaB st.db st.peer.id c.monthKey c.monthPfx = true →
      st.peer.disabled = false →
      st.peer.ros_id ≠ "" →
      st.dev = some e :: rest →
      quotaPhase c st =
        ({ st with db := addAction st.db st.peer.id c.nowUtc "quota_disable_failed" e,
                   dev := rest }, true))
    ∧ (∀ (c : Clock) (pt : String → Option Int) (st : PState) (e : String)
        (rest : List (Option String)),
      ((windowBounds st.db st.peer.id pt).1.isSome ∨
        (windowBounds st.db st.peer.id pt).2.isSome) →
      insideWindowB c.nowLocal (windowBounds st.db st.peer.id pt).1
        (windowBounds st.db st.peer.id pt).2 = false →
      st.peer.disabled = false →
      st.peer.ros_id ≠ "" →
      st.dev = some e :: rest →
      windowPhase c pt st =
        ({ st with db := addAction st.db st.peer.id c.nowUtc "window_disable_failed" e,
                   dev := rest }, false))
    ∧ (∀ (c : Clock) (st : PState) (a : Action) (e : String)
        (rest : List (Option String)),
      st.peer.disabled = true →
      lastAction st.db st.peer.id = some a →
      a.action = "quota_disable" →
      st.peer.ros_id ≠ "" →
      st.dev = some e :: rest →
      enablePhase c false true st =
        { st with db := addAction st.db st.peer.id c.nowUtc "quota_enable_failed" e,
                  dev := rest })
    ∧ (∀ (c : Clock) (st : PState) (a : Action) (e : String)
        (rest : List (Option String)),
      st.peer.disabled = true →
      lastAction st.db st.peer.id = some a →
      a.action = "window_disable" →
      st.peer.ros_id ≠ "" →
      st.dev = some e :: rest →
      enablePhase c false true st =
        { st with db := addAction st.db st.peer.id c.nowUtc "window_enable_failed" e,
                  dev := rest }) := by
  refine ⟨?_, ?_, ?_, ?_⟩
  · intro c st e rest hover hdis hros hdev
    simp [quotaPhase, hover, hdis, hros, hdev, popDev]
  · intro c pt st e rest hbounds hin hdis hros hdev
    have hb : ((windowBounds st.db st.peer.id pt).1.isSome ||
        (windowBounds st.db st.peer.id pt).2.isSome) = true := by
      rcases hbounds with h | h <;> simp [h]
    simp [windowPhase, hb, hin, hdis, hros, hdev, popDev]
  · intro c st a e rest hdis hla ha hros hdev
    have hbe : (a.action == "window_disable") = false := by rw [ha]; decide
    have hbe2 : (a.action == "quota_disable") = true := by rw [ha]; decide
    have happ : ("quota_enable" ++ "_failed" : String) = "quota_enable_failed" := rfl
    simp [enablePhase, hdis, hla, hbe, hbe2, hros, hdev, popDev, happ]
  · intro c st a e rest hdis hla ha hros hdev
    have hbe : (a.action == "window_disable") = true := by rw [ha]; decide
    have happ : ("window_enable" ++ "_failed" : String) = "window_enable_failed" := rfl
    simp [enablePhase, hdis, hla, hbe, hros, hdev, popDev, happ]

/-- Witness for C5: the four failure branches applied to concrete
states. -/
theorem C5_failed_actions_witness :
    quotaPhase (exClock 3)
        ⟨{ exDB with quotas := [⟨1, 100, 1⟩], monthly := [⟨1, "2025-01", 150, 0⟩] },
          exPeer, [some "boom"]⟩ =
      ({ db := addAction
            { exDB with quotas := [⟨1, 100, 1⟩], monthly := [⟨1, "2025-01", 150, 0⟩] }
            1 3 "quota_disable_failed" "boom",
          peer := exPeer, dev := [] }, true)
    ∧ enablePhase (exClock 3) false true
        ⟨{ exDB with actions := [⟨1, 0, "quota_disable", "n"⟩] },
          { exPeer with disabled := true }, [some "boom"]⟩ =
      { db := addAction { exDB with actions := [⟨1, 0, "quota_disable", "n"⟩] }
          1 3 "quota_enable_failed" "boom",
        peer := { exPeer with disabled := true }, dev := [] } := by
  constructor
  · exact C5_failed_actions.1 (exClock 3)
      ⟨{ exDB with quotas := [⟨1, 100, 1⟩], monthly := [⟨1, "2025-01", 150, 0⟩] },
        exPeer, [some "boom"]⟩ "boom" [] (by decide) (by decide) (by decide) rfl
  · exact C5_failed_actions.2.2.1 (exClock 3)
      ⟨{ exDB with actions := [⟨1, 0, "quota_disable", "n"⟩] },
        { exPeer with disabled := true }, [some "boom"]⟩
      ⟨1, 0, "quota_disable", "n"⟩ "boom" [] (by decide) (by decide) (by decide)
      (by decide) rfl

/-! ### C2 -/

theorem lastAction_congr (db db' : DB) (pid pid' : Nat)
    (ha : db.actions = db'.actions) (hp : pid = pid') :
    lastAction db pid = lastAction db' pid' := by
  unfold lastAction
  rw [ha, hp]

theorem quotaPhase_of_not_over (c : Clock) (st : PState)
    (h : overQuotaB st.db st.peer.id c.monthKey c.monthPfx = false) :
    quotaPhase c st = (st, false) := by
  simp [quotaPhase, h]

theorem windowPhase_of_inside (c : Clock) (pt : String → Option Int) (st : PState)
    (h : insideWindowB c.nowLocal (windowBounds st.db st.peer.id pt).1
      (windowBounds st.db st.peer.id pt).2 = true) :
    windowPhase c pt st = (st, true) := by
  simp [windowPhase, h]

theorem enablePhase_success (c : Clock) (st : PState) (a : Action)
    (hdis : st.peer.disabled = true)
    (hla : lastAction st.db st.peer.id = some a)
    (hact : a.action = "window_disable" ∨ a.action = "quota_disable")
    (hdev : st.dev = []) :
    (enablePhase c false true st).peer.disabled = false := by
  have hb : (a.action == "window_disable" || a.action == "quota_disable") = true := by
    rcases hact with h | h <;> simp [h]
  by_cases hr : st.peer.ros_id = "" <;>
    simp [enablePhase, hdis, hla, hb, hdev, popDev, hr]

theorem enablePhase_no_match (c : Clock) (st : PState)
    (hno : ∀ a, lastAction st.db st.peer.id = some a →
      a.action ≠ "window_disable" ∧ a.action ≠ "quota_disable") :
    enablePhase c false true st = st := by
  cases hla : lastAction st.db st.peer.id with
  | none => simp [enablePhase, hla]
  | some a =>
      obtain ⟨h1, h2⟩ := hno a hla
      have hb : (a.action == "window_disable" || a.action == "quota_disable") = false := by
        simp [h1, h2]
      simp [enablePhase, hla, hb]

/-- C2: a peer that is disabled (consistently in the database and on the
device), suffers no counter reset this cycle, is not over quota and is
inside its access window is auto re-enabled by the per-peer pipeline if
and only if the most recent Action recorded for it is `quota_disable` or
`window_disable`; in particular a peer disabled manually or through an
externally observed device change is never auto re-enabled. -/
theorem C2_reenable_gating (c : Clock) (pt : String → Option Int) (lp : WGPeer)
    (st : PState)
    (hdis : st.peer.disabled = true)
    (hlpdis : lp.disabled = true)
    (hros : lp.ros_id = "" ∨ st.peer.ros_id = lp.ros_id)
    (hnores : (computeDeltas (lastSample st.db st.peer.id) lp.rx_bytes lp.tx_bytes).2.2
      = false)
    (hover : overQuotaB (afterRollup c lp st).db (afterRollup c lp st).peer.id
      c.monthKey c.monthPfx = false)
    (hin : insideWindowB c.nowLocal
      (windowBounds (afterRollup c lp st).db (afterRollup c lp st).peer.id pt).1
      (windowBounds (afterRollup c lp st).db (afterRollup c lp st).peer.id pt).2 = true)
    (hdev : st.dev = []) :
    (processFound c pt lp st).peer.disabled = false ↔
      ∃ a, lastAction st.db st.peer.id = some a ∧
        (a.action = "quota_disable" ∨ a.action = "window_disable") := by
  -- The sync phase is the identity here, except possibly for name and
  -- address fields.
  have hsync : syncPhase c lp st = syncAddr lp (syncName lp st) := by
    unfold syncPhase
    rw [syncRos_of_match c lp st hros]
    apply syncDisabled_of_match
    rw [(syncAddr_frame lp (syncName lp st)).2.2.2.1,
      (syncName_frame lp st).2.2.2.1, hdis, hlpdis]
  have hNdb : (syncPhase c lp st).db = st.db := by
    rw [hsync, (syncAddr_frame lp (syncName lp st)).1, (syncName_frame lp st).1]
  have hNid : (syncPhase c lp st).peer.id = st.peer.id := (syncPhase_frame c lp st).2.2.2.2.2.2.1
  have hNdis : (syncPhase c lp st).peer.disabled = true := by
    rw [(syncPhase_frame c lp st).2.2.2.2.2.2.2.1, hlpdis]
  have hNros : (syncPhase c lp st).peer.ros_id = st.peer.ros_id := by
    rw [hsync, (syncAddr_frame lp (syncName lp st)).2.2.2.2.1,
      (syncName_frame lp st).2.2.2.2.1]
  have hNdev : (syncPhase c lp st).dev = st.dev := (syncPhase_frame c lp st).2.2.2.2.2.2.2.2.2.2
  -- No counter reset, so the sample phase only appends the raw sample.
  have hnores2 : (computeDeltas (lastSample (syncPhase c lp st).db
      (syncPhase c lp st).peer.id) lp.rx_bytes lp.tx_bytes).2.2 = false := by
    rw [lastSample_congr _ _ _ _ (by rw [hNdb]) hNid]
    exact hnores
  have hSact : (samplePhase c lp (syncPhase c lp st)).1.db.actions = st.db.actions := by
    rw [samplePhase_fst_db_actions_of_no_reset c lp (syncPhase c lp st) hnores2, hNdb]
  -- Components of the state entering the policy phases.
  have hARpeer : (afterRollup c lp st).peer = (syncPhase c lp st).peer := rfl
  have hARdev : (afterRollup c lp st).dev = st.dev := by
    have : (afterRollup c lp st).dev = (syncPhase c lp st).dev := rfl
    rw [this, hNdev]
  have hARdb : (afterRollup c lp st).db =
      rollupUpd (samplePhase c lp (syncPhase c lp st)).1.peer.id c.dayKey c.monthKey
        (samplePhase c lp (syncPhase c lp st)).2.1
        (samplePhase c lp (syncPhase c lp st)).2.2
        (samplePhase c lp (syncPhase c lp st)).1.db := rfl
  have hARact : (afterRollup c lp st).db.actions = st.db.actions := by
    rw [hARdb, (rollupUpd_frame _ _ _ _ _ _).2.1, hSact]
  have hARdis : (afterRollup c lp st).peer.disabled = true := by
    rw [hARpeer]; exact hNdis
  have hARid : (afterRollup c lp st).peer.id = st.peer.id := by
    rw [hARpeer]; exact hNid
  have hlaAR : lastAction (afterRollup c lp st).db (afterRollup c lp st).peer.id =
      lastAction st.db st.peer.id := lastAction_congr _ _ _ _ hARact hARid
  have hPF : processFound c pt lp st = enablePhase c false true (afterRollup c lp st) := by
    simp only [processFound]
    rw [quotaPhase_of_not_over c (afterRollup c lp st) hover]
    rw [windowPhase_of_inside c pt (afterRollup c lp st) hin]
  rw [hPF]
  constructor
  · intro h
    cases hla : lastAction st.db st.peer.id with
    | none =>
        exfalso
        rw [enablePhase_no_match c (afterRollup c lp st)
          (fun a ha => by rw [hlaAR, hla] at ha; cases ha)] at h
        rw [hARdis] at h
        cases h
    | some a =>
        by_cases hact : a.action = "quota_disable" ∨ a.action = "window_disable"
        · exact ⟨a, rfl, hact⟩
        · exfalso
          push_neg at hact
          rw [enablePhase_no_match c (afterRollup c lp st)
            (fun b hb => by
              rw [hlaAR, hla] at hb
              cases hb
              exact ⟨hact.2, hact.1⟩)] at h
          rw [hARdis] at h
          cases h
  · rintro ⟨a, hla, hact⟩
    exact enablePhase_success c (afterRollup c lp st) a hARdis
      (by rw [hlaAR]; exact hla) hact.symm (by rw [hARdev, hdev])

/-- Witness for C2: a disabled fixture peer whose most recent Action is
`quota_disable` is re-enabled when quota and window conditions hold. -/
theorem C2_reenable_gating_witness :
    (processFound (exClock 4) (fun _ => none) { (exLp 1000) with disabled := true }
        ⟨{ exDB with actions := [⟨1, 0, "quota_disable", "n"⟩] },
          { exPeer with disabled := true }, []⟩).peer.disabled = false := by
  have h := C2_reenable_gating (exClock 4) (fun _ => none)
    { (exLp 1000) with disabled := true }
    ⟨{ exDB with actions := [⟨1, 0, "quota_disable", "n"⟩] },
      { exPeer with disabled := true }, []⟩
    (by decide) (by decide) (by decide) (by decide) (by decide) (by decide) rfl
  exact h.mpr ⟨⟨1, 0, "quota_disable", "n"⟩, by decide, Or.inl rfl⟩

/-! ### C3 -/

theorem quotaPhase_of_disabled (c : Clock) (st : PState)
    (h : st.peer.disabled = true) :
    quotaPhase c st = (st, overQuotaB st.db st.peer.id c.monthKey c.monthPfx) := by
  simp [quotaPhase, h]

theorem windowPhase_of_disabled (c : Clock) (pt : String → Option Int) (st : PState)
    (h : st.peer.disabled = true) :
    windowPhase c pt st = (st, insideWindowB c.nowLocal
      (windowBounds st.db st.peer.id pt).1 (windowBounds st.db st.peer.id pt).2) := by
  simp [windowPhase, h]

theorem enablePhase_of_over (c : Clock) (inside : Bool) (st : PState) :
    enablePhase c true inside st = st := by
  simp [enablePhase]

theorem quotaPhase_over_success (c : Clock) (st : PState)
    (hover : overQuotaB st.db st.peer.id c.monthKey c.monthPfx = true)
    (hdis : st.peer.disabled = false)
    (hdev : st.dev = []) :
    ∃ note, quotaPhase c st =
      ({ st with peer := { st.peer with disabled := true },
                 db := addAction st.db st.peer.id c.nowUtc "quota_disable" note,
                 dev := [] }, true) := by
  by_cases hr : st.peer.ros_id = ""
  · refine ⟨"Auto-disabled (no ros_id): used=" ++
      toString (month_total_bytes st.db st.peer.id c.monthKey c.monthPfx) ++ " limit=" ++
      toString (match findQuota st.db st.peer.id with
        | some q => q.monthly_limit_bytes
        | none => 0), ?_⟩
    simp [quotaPhase, hover, hdis, hr, hdev]
  · refine ⟨"Auto-disabled: used=" ++
      toString (month_total_bytes st.db st.peer.id c.monthKey c.monthPfx) ++ " limit=" ++
      toString (match findQuota st.db st.peer.id with
        | some q => q.monthly_limit_bytes
        | none => 0), ?_⟩
    simp [quotaPhase, hover, hdis, hr, hdev, popDev]

/-- The sync, sample and rollup phases change neither the action log nor
the policy-relevant peer fields when the snapshot agrees with the local
row and no counter reset occurs. -/
theorem afterRollup_stable (c : Clock) (lp : WGPeer) (st : PState)
    (hros : lp.ros_id = "" ∨ st.peer.ros_id = lp.ros_id)
    (hd : st.peer.disabled = lp.disabled)
    (hnores : (computeDeltas (lastSample st.db st.peer.id) lp.rx_bytes lp.tx_bytes).2.2
      = false) :
    (afterRollup c lp st).db.actions = st.db.actions
    ∧ (afterRollup c lp st).peer.disabled = st.peer.disabled
    ∧ (afterRollup c lp st).peer.id = st.peer.id
    ∧ (afterRollup c lp st).peer.ros_id = st.peer.ros_id
    ∧ (afterRollup c lp st).dev = st.dev := by
  have hsync : syncPhase c lp st = syncAddr lp (syncName lp st) := by
    unfold syncPhase
    rw [syncRos_of_match c lp st hros]
    apply syncDisabled_of_match
    rw [(syncAddr_frame lp (syncName lp st)).2.2.2.1,
      (syncName_frame lp st).2.2.2.1, hd]
  have hNdb : (syncPhase c lp st).db = st.db := by
    rw [hsync, (syncAddr_frame lp (syncName lp st)).1, (syncName_frame lp st).1]
  have hNid : (syncPhase c lp st).peer.id = st.peer.id :=
    (syncPhase_frame c lp st).2.2.2.2.2.2.1
  have hNdis : (syncPhase c lp st).peer.disabled = st.peer.disabled := by
    rw [(syncPhase_frame c lp st).2.2.2.2.2.2.2.1, hd]
  have hNros : (syncPhase c lp st).peer.ros_id = st.peer.ros_id := by
    rw [hsync, (syncAddr_frame lp (syncName lp st)).2.2.2.2.1,
      (syncName_frame lp st).2.2.2.2.1]
  have hNdev : (syncPhase c lp st).dev = st.dev :=
    (syncPhase_frame c lp st).2.2.2.2.2.2.2.2.2.2
  have hnores2 : (computeDeltas (lastSample (syncPhase c lp st).db
      (syncPhase c lp st).peer.id) lp.rx_bytes lp.tx_bytes).2.2 = false := by
    rw [lastSample_congr _ _ _ _ (by rw [hNdb]) hNid]
    exact hnores
  have hSact : (samplePhase c lp (syncPhase c lp st)).1.db.actions = st.db.actions := by
    rw [samplePhase_fst_db_actions_of_no_reset c lp (syncPhase c lp st) hnores2, hNdb]
  have hARdb : (afterRollup c lp st).db =
      rollupUpd (samplePhase c lp (syncPhase c lp st)).1.peer.id c.dayKey c.monthKey
        (samplePhase c lp (syncPhase c lp st)).2.1
        (samplePhase c lp (syncPhase c lp st)).2.2
        (samplePhase c lp (syncPhase c lp st)).1.db := rfl
  have hARpeer : (afterRollup c lp st).peer = (syncPhase c lp st).peer := rfl
  have hARdev0 : (afterRollup c lp st).dev = (syncPhase c lp st).dev := rfl
  refine ⟨?_, ?_, ?_, ?_, ?_⟩
  · rw [hARdb, (rollupUpd_frame _ _ _ _ _ _).2.1, hSact]
  · rw [hARpeer, hNdis]
  · rw [hARpeer, hNid]
  · rw [hARpeer, hNros]
  · rw [hARdev0, hNdev]

/-- C3: the cycle judges a peer over-quota exactly when a `Quota` row
with a positive `monthly_limit_bytes` exists and the current-month total
reaches it; a peer that becomes over-quota while enabled is disabled
with exactly one appended `quota_disable` Action; and a subsequent cycle
that still finds the peer over-quota and disabled appends no action at
all. -/
theorem C3_quota_crossing :
    (∀ (db : DB) (pid : Nat) (mk mpfx : String),
      overQuotaB db pid mk mpfx = true ↔
        ∃ q, findQuota db pid = some q ∧ 0 < q.monthly_limit_bytes ∧
          q.monthly_limit_bytes ≤ month_total_bytes db pid mk mpfx)
    ∧ (∀ (c : Clock) (pt : String → Option Int) (lp : WGPeer) (st : PState),
      st.peer.disabled = false →
      lp.disabled = false →
      (lp.ros_id = "" ∨ st.peer.ros_id = lp.ros_id) →
      (computeDeltas (lastSample st.db st.peer.id) lp.rx_bytes lp.tx_bytes).2.2 = false →
      overQuotaB (afterRollup c lp st).db (afterRollup c lp st).peer.id
        c.monthKey c.monthPfx = true →
      st.dev = [] →
      (processFound c pt lp st).peer.disabled = true
      ∧ ∃ note, (processFound c pt lp st).db.actions =
          st.db.actions ++ [⟨st.peer.id, c.nowUtc, "quota_disable", note⟩])
    ∧ (∀ (c : Clock) (pt : String → Option Int) (lp : WGPeer) (st : PState),
      st.peer.disabled = true →
      lp.disabled = true →
      (lp.ros_id = "" ∨ st.peer.ros_id = lp.ros_id) →
      (computeDeltas (lastSample st.db st.peer.id) lp.rx_bytes lp.tx_bytes).2.2 = false →
      overQuotaB (afterRollup c lp st).db (afterRollup c lp st).peer.id
        c.monthKey c.monthPfx = true →
      (processFound c pt lp st).db.actions = st.db.actions
      ∧ (processFound c pt lp st).peer.disabled = true) := by
  refine ⟨?_, ?_, ?_⟩
  · intro db pid mk mpfx
    unfold overQuotaB
    cases hq : findQuota db pid with
    | none => simp
    | some q =>
        simp only [Bool.and_eq_true, bne_iff_ne, ne_eq, decide_eq_true_eq]
        constructor
        · rintro ⟨⟨hne, hpos⟩, hge⟩
          exact ⟨q, rfl, hpos, hge⟩
        · rintro ⟨q2, hq2, hpos, hge⟩
          cases hq2
          exact ⟨⟨by omega, hpos⟩, hge⟩
  · intro c pt lp st hdis hlpdis hros hnores hover hdev
    obtain ⟨hA1, hA2, hA3, hA4, hA5⟩ := afterRollup_stable c lp st hros
      (by rw [hdis, hlpdis]) hnores
    obtain ⟨note, hq⟩ := quotaPhase_over_success c (afterRollup c lp st) hover
      (by rw [hA2, hdis]) (by rw [hA5, hdev])
    have hPF : processFound c pt lp st = enablePhase c true
        (windowPhase c pt (quotaPhase c (afterRollup c lp st)).1).2
        (windowPhase c pt (quotaPhase c (afterRollup c lp st)).1).1 := by
      simp only [processFound]
      rw [hq]
    have hwd := windowPhase_of_disabled c pt (quotaPhase c (afterRollup c lp st)).1
      (by rw [hq])
    rw [hPF, hwd, enablePhase_of_over]
    rw [hq]
    refine ⟨rfl, note, ?_⟩
    simp [addAction, hA1, hA3]
  · intro c pt lp st hdis hlpdis hros hnores hover
    obtain ⟨hA1, hA2, hA3, hA4, hA5⟩ := afterRollup_stable c lp st hros
      (by rw [hdis, hlpdis]) hnores
    have hq := quotaPhase_of_disabled c (afterRollup c lp st) (by rw [hA2, hdis])
    have hPF : processFound c pt lp st = enablePhase c
        (overQuotaB (afterRollup c lp st).db (afterRollup c lp st).peer.id
          c.monthKey c.monthPfx)
        (windowPhase c pt (afterRollup c lp st)).2
        (windowPhase c pt (afterRollup c lp st)).1 := by
      simp only [processFound]
      rw [hq]
    have hwd := windowPhase_of_disabled c pt (afterRollup c lp st) (by rw [hA2, hdis])
    rw [hPF, hwd, hover, enablePhase_of_over]
    exact ⟨hA1, by rw [hA2, hdis]⟩

/-- The over-quota fixture database: a previous sample at counter 1000,
a quota of 100 bytes and a month total of 150. -/
def c3DB1 : DB :=
  { exDB with
    samples := [⟨1, 0, 1000, 0, "1.2.3.4:5"⟩],
    quotas := [⟨1, 100, 1⟩],
    monthly := [⟨1, "2025-01", 150, 0⟩] }

/-- The over-quota fixture database after the first disable. -/
def c3DB2 : DB :=
  { exDB with
    samples := [⟨1, 0, 1000, 0, "1.2.3.4:5"⟩],
    quotas := [⟨1, 100, 1⟩],
    monthly := [⟨1, "2025-01", 150, 0⟩],
    actions := [⟨1, 3, "quota_disable", "n"⟩] }

/-- Witness for C3: a fixture peer with limit 100 and month total 150 is
disabled with one `quota_disable` action; a second cycle on a disabled
over-quota peer appends nothing. -/
theorem C3_quota_crossing_witness :
    ((processFound (exClock 3) (fun _ => none) (exLp 1000)
        ⟨c3DB1, exPeer, []⟩).peer.disabled = true)
    ∧ ((processFound (exClock 9) (fun _ => none) { (exLp 1000) with disabled := true }
        ⟨c3DB2, { exPeer with disabled := true }, []⟩).db.actions =
        [⟨1, 3, "quota_disable", "n"⟩]) := by
  constructor
  · exact (C3_quota_crossing.2.1 (exClock 3) (fun _ => none) (exLp 1000)
      ⟨c3DB1, exPeer, []⟩
      (by decide) (by decide) (by decide) (by decide) (by decide) rfl).1
  · have h := (C3_quota_crossing.2.2 (exClock 9) (fun _ => none)
      { (exLp 1000) with disabled := true }
      ⟨c3DB2, { exPeer with disabled := true }, []⟩
      (by decide) (by decide) (by decide) (by decide) (by decide)).1
    rw [h]
    decide

/-! ### C9 -/

/-- A successful auto-disable audit record. -/
def isAutoDisable (a : Action) : Bool :=
  a.action == "quota_disable" || a.action == "window_disable"

/-- Number of successful auto-disable records in an action log. -/
def countDis (l : List Action) : Nat := (l.filter isAutoDisable).length

theorem countDis_addAction_false (db : DB) (pid : Nat) (ts : Int) (act note : String)
    (h : isAutoDisable ⟨pid, ts, act, note⟩ = false) :
    countDis (addAction db pid ts act note).actions = countDis db.actions := by
  simp [addAction, countDis, List.filter_append, h]

theorem countDis_addAction_true (db : DB) (pid : Nat) (ts : Int) (act note : String)
    (h : isAutoDisable ⟨pid, ts, act, note⟩ = true) :
    countDis (addAction db pid ts act note).actions = countDis db.actions + 1 := by
  simp [addAction, countDis, List.filter_append, h]

theorem countDis_syncRos (c : Clock) (lp : WGPeer) (st : PState) :
    countDis (syncRos c lp st).db.actions = countDis st.db.actions := by
  unfold syncRos
  split
  · exact countDis_addAction_false _ _ _ _ _ (by simp [isAutoDisable])
  · rfl

theorem countDis_syncDisabled (c : Clock) (lp : WGPeer) (st : PState) :
    countDis (syncDisabled c lp st).db.actions = countDis st.db.actions := by
  unfold syncDisabled
  split
  · cases hl : lp.disabled <;> simp only [hl, if_true, if_false] <;>
      exact countDis_addAction_false _ _ _ _ _ (by simp [isAutoDisable])
  · rfl

theorem countDis_syncPhase (c : Clock) (lp : WGPeer) (st : PState) :
    countDis (syncPhase c lp st).db.actions = countDis st.db.actions := by
  unfold syncPhase
  rw [countDis_syncDisabled, (syncAddr_frame _ _).1, (syncName_frame _ _).1,
    countDis_syncRos]

theorem countDis_samplePhase (c : Clock) (lp : WGPeer) (st : PState) :
    countDis (samplePhase c lp st).1.db.actions = countDis st.db.actions := by
  simp only [samplePhase]
  split
  · split
    · exact countDis_addAction_false _ _ _ _ _ (by simp [isAutoDisable])
    · rfl
  · rfl

theorem countDis_afterRollup (c : Clock) (lp : WGPeer) (st : PState) :
    countDis (afterRollup c lp st).db.actions = countDis st.db.actions := by
  have hARdb : (afterRollup c lp st).db =
      rollupUpd (samplePhase c lp (syncPhase c lp st)).1.peer.id c.dayKey c.monthKey
        (samplePhase c lp (syncPhase c lp st)).2.1
        (samplePhase c lp (syncPhase c lp st)).2.2
        (samplePhase c lp (syncPhase c lp st)).1.db := rfl
  rw [hARdb, (rollupUpd_frame _ _ _ _ _ _).2.1, countDis_samplePhase, countDis_syncPhase]

theorem quotaPhase_count_char (c : Clock) (st : PState) :
    (countDis (quotaPhase c st).1.db.actions = countDis st.db.actions + 1
      ∧ (quotaPhase c st).1.peer.disabled = true)
    ∨ countDis (quotaPhase c st).1.db.actions = countDis st.db.actions := by
  simp only [quotaPhase]
  split
  · split
    · split
      · exact Or.inl ⟨countDis_addAction_true _ _ _ _ _ (by simp [isAutoDisable]), rfl⟩
      · exact Or.inr (countDis_addAction_false _ _ _ _ _ (by simp [isAutoDisable]))
    · exact Or.inl ⟨countDis_addAction_true _ _ _ _ _ (by simp [isAutoDisable]), rfl⟩
  · exact Or.inr rfl

theorem windowPhase_count_char (c : Clock) (pt : String → Option Int) (st : PState) :
    countDis (windowPhase c pt st).1.db.actions = countDis st.db.actions + 1
    ∨ countDis (windowPhase c pt st).1.db.actions = countDis st.db.actions := by
  simp only [windowPhase]
  split
  · split
    · split
      · exact Or.inl (countDis_addAction_true _ _ _ _ _ (by simp [isAutoDisable]))
      · exact Or.inr (countDis_addAction_false _ _ _ _ _ (by simp [isAutoDisable]))
    · exact Or.inl (countDis_addAction_true _ _ _ _ _ (by simp [isAutoDisable]))
  · exact Or.inr rfl

theorem enablePhase_count (c : Clock) (o i : Bool) (st : PState) :
    countDis (enablePhase c o i st).db.actions = countDis st.db.actions := by
  simp only [enablePhase]
  split
  · split
    · split
      · split
        · split
          · cases hb : ((_ : Action).action == "window_disable") <;>
              exact countDis_addAction_false _ _ _ _ _ (by simp [isAutoDisable, hb])
          · cases hb : ((_ : Action).action == "window_disable") <;>
              exact countDis_addAction_false _ _ _ _ _ (by simp [isAutoDisable, hb])
        · cases hb : ((_ : Action).action == "window_disable") <;>
            exact countDis_addAction_false _ _ _ _ _ (by simp [isAutoDisable, hb])
      · rfl
    · rfl
  · rfl

/-- C9: one per-peer pipeline run records at most one successful
auto-disable Action (`quota_disable` or `window_disable`); and a peer
that is simultaneously over quota and outside its access window while
enabled gets exactly one `quota_disable` (the window branch is skipped
because the peer is already disabled). -/
theorem C9_at_most_one_disable :
    (∀ (c : Clock) (pt : String → Option Int) (lp : WGPeer) (st : PState),
      countDis (processFound c pt lp st).db.actions ≤ countDis st.db.actions + 1)
    ∧ (∀ (c : Clock) (pt : String → Option Int) (lp : WGPeer) (st : PState),
      st.peer.disabled = false →
      lp.disabled = false →
      (lp.ros_id = "" ∨ st.peer.ros_id = lp.ros_id) →
      (computeDeltas (lastSample st.db st.peer.id) lp.rx_bytes lp.tx_bytes).2.2 = false →
      overQuotaB (afterRollup c lp st).db (afterRollup c lp st).peer.id
        c.monthKey c.monthPfx = true →
      insideWindowB c.nowLocal
        (windowBounds (afterRollup c lp st).db (afterRollup c lp st).peer.id pt).1
        (windowBounds (afterRollup c lp st).db (afterRollup c lp st).peer.id pt).2 = false →
      st.dev = [] →
      ∃ note, (processFound c pt lp st).db.actions =
        st.db.actions ++ [⟨st.peer.id, c.nowUtc, "quota_disable", note⟩]) := by
  constructor
  · intro c pt lp st
    have hPFdef : processFound c pt lp st =
        enablePhase c (quotaPhase c (afterRollup c lp st)).2
          (windowPhase c pt (quotaPhase c (afterRollup c lp st)).1).2
          (windowPhase c pt (quotaPhase c (afterRollup c lp st)).1).1 := rfl
    have hAR := countDis_afterRollup c lp st
    have hE := enablePhase_count c (quotaPhase c (afterRollup c lp st)).2
      (windowPhase c pt (quotaPhase c (afterRollup c lp st)).1).2
      (windowPhase c pt (quotaPhase c (afterRollup c lp st)).1).1
    rcases quotaPhase_count_char c (afterRollup c lp st) with ⟨h1, h2⟩ | h1
    · have hw := windowPhase_of_disabled c pt (quotaPhase c (afterRollup c lp st)).1 h2
      have hw1 : (windowPhase c pt (quotaPhase c (afterRollup c lp st)).1).1 =
          (quotaPhase c (afterRollup c lp st)).1 := by rw [hw]
      rw [hPFdef, hE, hw1]
      omega
    · rcases windowPhase_count_char c pt (quotaPhase c (afterRollup c lp st)).1 with
        hw | hw
      · rw [hPFdef, hE]
        omega
      · rw [hPFdef, hE]
        omega
  · intro c pt lp st hdis hlpdis hros hnores hover hout hdev
    obtain ⟨hA1, hA2, hA3, hA4, hA5⟩ := afterRollup_stable c lp st hros
      (by rw [hdis, hlpdis]) hnores
    obtain ⟨note, hq⟩ := quotaPhase_over_success c (afterRollup c lp st) hover
      (by rw [hA2, hdis]) (by rw [hA5, hdev])
    have hPF : processFound c pt lp st = enablePhase c true
        (windowPhase c pt (quotaPhase c (afterRollup c lp st)).1).2
        (windowPhase c pt (quotaPhase c (afterRollup c lp st)).1).1 := by
      simp only [processFound]
      rw [hq]
    have hwd := windowPhase_of_disabled c pt (quotaPhase c (afterRollup c lp st)).1
      (by rw [hq])
    rw [hPF, hwd, enablePhase_of_over]
    rw [hq]
    refine ⟨note, ?_⟩
    simp [addAction, hA1, hA3]

/-- Window-bound fixture: a parse function mapping the stored bound to
instant 10. -/
def exParse : String → Option Int := fun v => if v == "F" then some 10 else none

/-- Witness for C9: an enabled fixture peer over quota and outside its
window gets exactly the one `quota_disable` action at instant 3 < 10. -/
theorem C9_at_most_one_disable_witness :
    ∃ note, (processFound (exClock 3) exParse (exLp 1000)
        ⟨{ c3DB1 with kv := [("quota_valid_from:1", "F")] }, exPeer, []⟩).db.actions =
      [] ++ [⟨1, 3, "quota_disable", note⟩] := by
  exact C9_at_most_one_disable.2 (exClock 3) exParse (exLp 1000)
    ⟨{ c3DB1 with kv := [("quota_valid_from:1", "F")] }, exPeer, []⟩
    (by decide) (by decide) (by decide) (by decide) (by decide) (by decide) rfl

/-! ### C10 -/

/-- C10: an access-window bound whose stored value does not parse is
silently treated as absent; consequently a peer whose only configured
bound is malformed evaluates as inside its window and the window branch
does nothing to it (and the symmetric case for the other bound). -/
theorem C10_malformed_window_bound :
    (∀ (db : DB) (pid : Nat) (pt : String → Option Int) (v : String),
      kvGet db ("quota_valid_from:" ++ toString pid) = some v → pt v = none →
      (windowBounds db pid pt).1 = none)
    ∧ (∀ (db : DB) (pid : Nat) (pt : String → Option Int) (v : String),
      kvGet db ("quota_valid_until:" ++ toString pid) = some v → pt v = none →
      (windowBounds db pid pt).2 = none)
    ∧ (∀ (c : Clock) (pt : String → Option Int) (st : PState),
      windowBounds st.db st.peer.id pt = (none, none) →
      windowPhase c pt st = (st, true))
    ∧ (∀ (c : Clock) (pt : String → Option Int) (st : PState) (v : String),
      kvGet st.db ("quota_valid_from:" ++ toString st.peer.id) = some v → pt v = none →
      kvGet st.db ("quota_valid_until:" ++ toString st.peer.id) = none →
      windowPhase c pt st = (st, true))
    ∧ (∀ (c : Clock) (pt : String → Option Int) (st : PState) (v : String),
      kvGet st.db ("quota_valid_from:" ++ toString st.peer.id) = none →
      kvGet st.db ("quota_valid_until:" ++ toString st.peer.id) = some v → pt v = none →
      windowPhase c pt st = (st, true)) := by
  have h1 : ∀ (db : DB) (pid : Nat) (pt : String → Option Int) (v : String),
      kvGet db ("quota_valid_from:" ++ toString pid) = some v → pt v = none →
      (windowBounds db pid pt).1 = none := by
    intro db pid pt v hkv hpt
    by_cases hv : v = "" <;> simp [windowBounds, hkv, hv, hpt]
  have h2 : ∀ (db : DB) (pid : Nat) (pt : String → Option Int) (v : String),
      kvGet db ("quota_valid_until:" ++ toString pid) = some v → pt v = none →
      (windowBounds db pid pt).2 = none := by
    intro db pid pt v hkv hpt
    by_cases hv : v = "" <;> simp [windowBounds, hkv, hv, hpt]
  have h3 : ∀ (c : Clock) (pt : String → Option Int) (st : PState),
      windowBounds st.db st.peer.id pt = (none, none) →
      windowPhase c pt st = (st, true) := by
    intro c pt st hb
    simp [windowPhase, hb, insideWindowB]
  refine ⟨h1, h2, h3, ?_, ?_⟩
  · intro c pt st v hkv hpt hvu
    apply h3
    have hws := h1 st.db st.peer.id pt v hkv hpt
    have hwe : (windowBounds st.db st.peer.id pt).2 = none := by
      simp [windowBounds, hvu]
    rw [Prod.ext_iff]
    exact ⟨hws, hwe⟩
  · intro c pt st v hvf hkv hpt
    apply h3
    have hwe := h2 st.db st.peer.id pt v hkv hpt
    have hws : (windowBounds st.db st.peer.id pt).1 = none := by
      simp [windowBounds, hvf]
    rw [Prod.ext_iff]
    exact ⟨hws, hwe⟩

/-- Witness for C10: a peer whose only bound is the unparseable string
`garbage` passes the window phase untouched and inside its window. -/
theorem C10_malformed_window_bound_witness :
    windowPhase (exClock 3) (fun _ => none)
      ⟨{ exDB with kv := [("quota_valid_from:1", "garbage")] }, exPeer, []⟩ =
      (⟨{ exDB with kv := [("quota_valid_from:1", "garbage")] }, exPeer, []⟩, true) := by
  exact C10_malformed_window_bound.2.2.2.1 (exClock 3) (fun _ => none)
    ⟨{ exDB with kv := [("quota_valid_from:1", "garbage")] }, exPeer, []⟩ "garbage"
    (by decide) rfl (by decide)

/-! ### C4 -/

theorem processGroup_skip (c : Clock) (pt : String → Option Int) (g : CycleGroup)
    (acc : DB × List (Option String)) (h : g.listResult = none) :
    processGroup c pt g acc = acc := by
  cases hr : g.routerFound <;> simp [processGroup, h, hr]

/-- C4: a group whose peer listing fails contributes nothing to the
cycle, and the cycle over all groups commits exactly the state it would
have committed had the failing group not been polled at all — work of
the other groups is neither lost nor aborted. -/
theorem C4_group_isolation :
    (∀ (c : Clock) (pt : String → Option Int) (g : CycleGroup)
      (acc : DB × List (Option String)),
      g.listResult = none → processGroup c pt g acc = acc)
    ∧ (∀ (c : Clock) (pt : String → Option Int) (gs1 gs2 : List CycleGroup)
      (g : CycleGroup) (db : DB) (dev : List (Option String)),
      g.listResult = none →
      pollOnce c pt (gs1 ++ g :: gs2) db dev = pollOnce c pt (gs1 ++ gs2) db dev) := by
  refine ⟨processGroup_skip, ?_⟩
  intro c pt gs1 gs2 g db dev h
  unfold pollOnce
  rw [List.foldl_append, List.foldl_append, List.foldl_cons,
    processGroup_skip c pt g _ h]

/-- A healthy fixture group holding the fixture peer. -/
def exGroup : CycleGroup := ⟨1, "wg0", true, some [exLp 1200], [exPeer]⟩

/-- A fixture group whose peer listing fails. -/
def exGroupFail : CycleGroup := ⟨2, "wg1", true, none, [{ exPeer with id := 2, router_id := 2 }]⟩

/-- Witness for C4: a cycle over a healthy group and a failing group
commits the same state as the cycle without the failing group. -/
theorem C4_group_isolation_witness :
    pollOnce (exClock 7) (fun _ => none) ([exGroup] ++ exGroupFail :: []) exDB [] =
      pollOnce (exClock 7) (fun _ => none) ([exGroup] ++ []) exDB [] := by
  exact C4_group_isolation.2 (exClock 7) (fun _ => none) [exGroup] [] exGroupFail
    exDB [] (by decide)

/-! ### C8: list-level lemmas about `updFirst` and filtered sums -/

theorem find?_updFirst_same {α : Type} (p : α → Bool) (f : α → α)
    (hf : ∀ a, p a = true → p (f a) = true) (l : List α) :
    List.find? p (updFirst p f l) = (List.find? p l).map f := by
  induction l with
  | nil => rfl
  | cons x xs ih =>
      by_cases hp : p x = true
      · simp only [updFirst, if_pos hp]
        rw [List.find?_cons_of_pos _ (hf x hp), List.find?_cons_of_pos _ hp]
        rfl
      · simp only [updFirst, if_neg hp]
        rw [List.find?_cons_of_neg _ (by simpa using hp),
          List.find?_cons_of_neg _ (by simpa using hp), ih]

theorem find?_updFirst_other {α : Type} (p q : α → Bool) (f : α → α)
    (h : ∀ a, q a = true → p a = false ∧ p (f a) = false) (l : List α) :
    List.find? p (updFirst q f l) = List.find? p l := by
  induction l with
  | nil => rfl
  | cons x xs ih =>
      by_cases hq : q x = true
      · obtain ⟨h1, h2⟩ := h x hq
        simp only [updFirst, if_pos hq]
        rw [List.find?_cons_of_neg _ (by simp [h2]),
          List.find?_cons_of_neg _ (by simp [h1])]
      · simp only [updFirst, if_neg hq]
        by_cases hp : p x = true
        · rw [List.find?_cons_of_pos _ hp, List.find?_cons_of_pos _ hp]
        · rw [List.find?_cons_of_neg _ (by simpa using hp),
            List.find?_cons_of_neg _ (by simpa using hp), ih]

theorem sum_filter_map_updFirst_add {α : Type} (q filt : α → Bool) (g : α → Int)
    (f : α → α) (δ : Int)
    (h : ∀ a, q a = true → filt a = true ∧ filt (f a) = true ∧ g (f a) = g a + δ)
    (l : List α) (hex : (List.find? q l).isSome = true) :
    (((updFirst q f l).filter filt).map g).sum = ((l.filter filt).map g).sum + δ := by
  induction l with
  | nil => simp at hex
  | cons x xs ih =>
      by_cases hq : q x = true
      · obtain ⟨h1, h2, h3⟩ := h x hq
        simp only [updFirst, if_pos hq, List.filter_cons, h1, h2, if_true,
          List.map_cons, List.sum_cons, h3]
        ring
      · have hex2 : (List.find? q xs).isSome = true := by
          rw [List.find?_cons_of_neg _ (by simpa using hq)] at hex
          exact hex
        simp only [updFirst, if_neg hq, List.filter_cons]
        by_cases hfx : filt x = true
        · simp only [hfx, if_true, List.map_cons, List.sum_cons, ih hex2]
          ring
        · simp only [hfx, Bool.false_eq_true, if_false, ih hex2]

theorem sum_filter_map_updFirst_skip {α : Type} (q filt : α → Bool) (g : α → Int)
    (f : α → α)
    (h : ∀ a, q a = true → filt a = false ∧ filt (f a) = false)
    (l : List α) :
    (((updFirst q f l).filter filt).map g).sum = ((l.filter filt).map g).sum := by
  induction l with
  | nil => rfl
  | cons x xs ih =>
      by_cases hq : q x = true
      · obtain ⟨h1, h2⟩ := h x hq
        simp only [updFirst, if_pos hq, List.filter_cons, h1, h2, Bool.false_eq_true,
          if_false]
      · simp only [updFirst, if_neg hq, List.filter_cons]
        by_cases hfx : filt x = true
        · simp only [hfx, if_true, List.map_cons, List.sum_cons, ih]
        · simp only [hfx, Bool.false_eq_true, if_false, ih]

theorem sum_filter_map_append {α : Type} (filt : α → Bool) (g : α → Int)
    (l : List α) (x : α) :
    (((l ++ [x]).filter filt).map g).sum =
      ((l.filter filt).map g).sum + (if filt x = true then g x else 0) := by
  rw [List.filter_append]
  by_cases hx : filt x = true <;>
    simp [List.filter_cons, hx]

theorem dailyMonthSum_congr (db db' : DB) (pid : Nat) (mpfx : String)
    (h : db.daily = db'.daily) :
    dailyMonthSum db pid mpfx = dailyMonthSum db' pid mpfx := by
  unfold dailyMonthSum
  rw [h]

theorem findMonthly_congr (db db' : DB) (pid : Nat) (mk : String)
    (h : db.monthly = db'.monthly) :
    findMonthly db pid mk = findMonthly db' pid mk := by
  unfold findMonthly
  rw [h]

theorem dailyMonthSum_upsertDaily_other (pid2 : Nat) (dk : String) (drx dtx : Int)
    (db : DB) (pid : Nat) (P : String)
    (h : (pid2 == pid && strStarts P dk) = false) :
    dailyMonthSum (upsertDaily pid2 dk drx dtx db) pid P = dailyMonthSum db pid P := by
  unfold upsertDaily
  cases hd : findDaily db pid2 dk with
  | none =>
      unfold dailyMonthSum
      dsimp only
      rw [sum_filter_map_append, sum_filter_map_append]
      simp [h]
  | some r =>
      unfold dailyMonthSum
      dsimp only
      have hskip : ∀ a : UsageDaily, (a.peer_id == pid2 && a.day == dk) = true →
          (a.peer_id == pid && strStarts P a.day) = false ∧
          ((({ a with rx := a.rx + drx, tx := a.tx + dtx } : UsageDaily).peer_id == pid &&
            strStarts P ({ a with rx := a.rx + drx, tx := a.tx + dtx } : UsageDaily).day))
            = false := by
        intro a ha
        simp only [Bool.and_eq_true, beq_iff_eq] at ha
        obtain ⟨h1, h2⟩ := ha
        constructor <;> · dsimp only; rw [h1, h2]; exact h
      rw [sum_filter_map_updFirst_skip _ _ UsageDaily.rx _ hskip db.daily,
        sum_filter_map_updFirst_skip _ _ UsageDaily.tx _ hskip db.daily]

theorem dailyMonthSum_upsertDaily_hit (pid : Nat) (dk : String) (drx dtx : Int)
    (db : DB) (P : String) (h : strStarts P dk = true) :
    dailyMonthSum (upsertDaily pid dk drx dtx db) pid P =
      dailyMonthSum db pid P + (drx + dtx) := by
  unfold upsertDaily
  cases hd : findDaily db pid dk with
  | none =>
      unfold dailyMonthSum
      dsimp only
      rw [sum_filter_map_append, sum_filter_map_append]
      simp only [h, beq_self_eq_true, Bool.true_and, if_true]
      ring
  | some r =>
      have hex : (List.find? (fun r => r.peer_id == pid && r.day == dk) db.daily).isSome
          = true := by
        unfold findDaily at hd
        rw [hd]
        rfl
      unfold dailyMonthSum
      dsimp only
      rw [sum_filter_map_updFirst_add _ _ UsageDaily.rx _ drx ?hrx db.daily hex,
        sum_filter_map_updFirst_add _ _ UsageDaily.tx _ dtx ?htx db.daily hex]
      · ring
      case hrx =>
        intro a ha
        simp only [Bool.and_eq_true, beq_iff_eq] at ha
        obtain ⟨h1, h2⟩ := ha
        refine ⟨by rw [h1, h2]; simp [h], by rw [h1, h2]; simp [h], rfl⟩
      case htx =>
        intro a ha
        simp only [Bool.and_eq_true, beq_iff_eq] at ha
        obtain ⟨h1, h2⟩ := ha
        refine ⟨by rw [h1, h2]; simp [h], by rw [h1, h2]; simp [h], rfl⟩

theorem findMonthly_upsertMonthly_other (pid2 : Nat) (mk2 : String) (drx dtx : Int)
    (db : DB) (pid : Nat) (K : String)
    (h : (pid2 == pid && mk2 == K) = false) :
    findMonthly (upsertMonthly pid2 mk2 drx dtx db) pid K = findMonthly db pid K := by
  unfold upsertMonthly
  cases hm : findMonthly db pid2 mk2 with
  | none =>
      unfold findMonthly
      dsimp only
      rw [List.find?_append]
      simp [h]
  | some m =>
      unfold findMonthly
      dsimp only
      apply find?_updFirst_other
      intro a ha
      simp only [Bool.and_eq_true, beq_iff_eq] at ha
      obtain ⟨h1, h2⟩ := ha
      constructor <;> · dsimp only; rw [h1, h2]; exact h

theorem findMonthly_upsertMonthly_self_none (pid : Nat) (K : String) (drx dtx : Int)
    (db : DB) (h : findMonthly db pid K = none) :
    findMonthly (upsertMonthly pid K drx dtx db) pid K = some ⟨pid, K, drx, dtx⟩ := by
  unfold upsertMonthly
  rw [h]
  unfold findMonthly at h ⊢
  dsimp only
  rw [List.find?_append, h]
  simp

theorem findMonthly_upsertMonthly_self_some (pid : Nat) (K : String) (drx dtx : Int)
    (db : DB) (m : UsageMonthly) (h : findMonthly db pid K = some m) :
    findMonthly (upsertMonthly pid K drx dtx db) pid K =
      some { m with rx := m.rx + drx, tx := m.tx + dtx } := by
  unfold upsertMonthly
  rw [h]
  have hf : ∀ a : UsageMonthly, (a.peer_id == pid && a.month_key == K) = true →
      ((({ a with rx := a.rx + drx, tx := a.tx + dtx } : UsageMonthly).peer_id == pid &&
        ({ a with rx := a.rx + drx, tx := a.tx + dtx } : UsageMonthly).month_key == K))
        = true := by
    intro a ha
    exact ha
  unfold findMonthly at h ⊢
  dsimp only
  rw [find?_updFirst_same _ _ hf db.monthly, h]
  rfl

/-- One rollup update as issued by a cycle for one peer: the deltas with
the day and month keys derived from the same poll instant. -/
structure Upd where
  pid : Nat
  dayKey : String
  monthKey : String
  drx : Int
  dtx : Int
deriving DecidableEq

/-- The rollup state reached by applying a sequence of the core's rollup
updates. -/
def applyUpds (us : List Upd) (db : DB) : DB :=
  us.foldl (fun d u => rollupUpd u.pid u.dayKey u.monthKey u.drx u.dtx d) db

/-- Day/month key coherence for the query month `K`: a day key matches
the `LIKE` month pattern exactly when the update's month key is `K`
(true of the `strftime` keys of `_poll_once`, which derive from one
instant). -/
def MonthCoherent (K : String) (us : List Upd) : Prop :=
  ∀ u ∈ us, (strStarts (K ++ "-") u.dayKey = true ↔ u.monthKey = K)

/-- Invariant tying the two month-total paths together: the monthly row
of `(pid, K)`, when present, carries exactly the sum of the matching
daily rows, and when absent no matching daily row carries traffic. -/
def RollInv (pid : Nat) (K : String) (db : DB) : Prop :=
  (∀ m, findMonthly db pid K = some m →
    m.rx + m.tx = dailyMonthSum db pid (K ++ "-"))
  ∧ (findMonthly db pid K = none → dailyMonthSum db pid (K ++ "-") = 0)

theorem RollInv_empty (pid : Nat) (K : String) (db : DB)
    (h1 : db.daily = []) (h2 : db.monthly = []) : RollInv pid K db := by
  constructor
  · intro m hm
    unfold findMonthly at hm
    rw [h2] at hm
    cases hm
  · intro _
    unfold dailyMonthSum
    rw [h1]
    rfl

theorem RollInv_step (pid : Nat) (K : String) (u : Upd) (db : DB)
    (hcoh : strStarts (K ++ "-") u.dayKey = true ↔ u.monthKey = K)
    (hinv : RollInv pid K db) :
    RollInv pid K (rollupUpd u.pid u.dayKey u.monthKey u.drx u.dtx db) := by
  unfold rollupUpd
  by_cases hz : (u.drx != 0 || u.dtx != 0) = true
  · rw [if_pos hz]
    by_cases hpid : u.pid = pid
    · rw [hpid]
      by_cases hmk : u.monthKey = K
      · -- same peer, current month: both structures grow by the deltas
        rw [hmk]
        have hstart : strStarts (K ++ "-") u.dayKey = true := hcoh.mpr hmk
        have hsum := dailyMonthSum_upsertDaily_hit pid u.dayKey u.drx u.dtx db
          (K ++ "-") hstart
        have hdaily2 := dailyMonthSum_congr
          (upsertMonthly pid K u.drx u.dtx (upsertDaily pid u.dayKey u.drx u.dtx db))
          (upsertDaily pid u.dayKey u.drx u.dtx db) pid (K ++ "-")
          (upsertMonthly_frame pid K u.drx u.dtx _).2.1
        have hfm1 := findMonthly_congr (upsertDaily pid u.dayKey u.drx u.dtx db) db
          pid K (upsertDaily_frame pid u.dayKey u.drx u.dtx db).2.1
        cases hm : findMonthly db pid K with
        | none =>
            have h2 := findMonthly_upsertMonthly_self_none pid K u.drx u.dtx
              (upsertDaily pid u.dayKey u.drx u.dtx db) (by rw [hfm1, hm])
            constructor
            · intro m hm2
              rw [h2] at hm2
              cases hm2
              rw [hdaily2, hsum, hinv.2 hm]
              dsimp only
              ring
            · intro hcontr
              rw [h2] at hcontr
              cases hcontr
        | some m =>
            have h2 := findMonthly_upsertMonthly_self_some pid K u.drx u.dtx
              (upsertDaily pid u.dayKey u.drx u.dtx db) m (by rw [hfm1, hm])
            constructor
            · intro m2 hm2
              rw [h2] at hm2
              cases hm2
              rw [hdaily2, hsum]
              have := hinv.1 m hm
              dsimp only
              omega
            · intro hcontr
              rw [h2] at hcontr
              cases hcontr
      · -- same peer, other month: the query month sees no change
        have hstart : strStarts (K ++ "-") u.dayKey = false := by
          cases hs : strStarts (K ++ "-") u.dayKey
          · rfl
          · exact absurd (hcoh.mp hs) hmk
        have hsum := dailyMonthSum_upsertDaily_other pid u.dayKey u.drx u.dtx db
          pid (K ++ "-") (by simp [hstart])
        have hdaily2 := dailyMonthSum_congr
          (upsertMonthly pid u.monthKey u.drx u.dtx (upsertDaily pid u.dayKey u.drx u.dtx db))
          (upsertDaily pid u.dayKey u.drx u.dtx db) pid (K ++ "-")
          (upsertMonthly_frame pid u.monthKey u.drx u.dtx _).2.1
        have hfm1 := findMonthly_congr (upsertDaily pid u.dayKey u.drx u.dtx db) db
          pid K (upsertDaily_frame pid u.dayKey u.drx u.dtx db).2.1
        have hfm2 := findMonthly_upsertMonthly_other pid u.monthKey u.drx u.dtx
          (upsertDaily pid u.dayKey u.drx u.dtx db) pid K (by simp [hmk])
        constructor
        · intro m hm2
          rw [hfm2, hfm1] at hm2
          rw [hdaily2, hsum]
          exact hinv.1 m hm2
        · intro hnone
          rw [hfm2, hfm1] at hnone
          rw [hdaily2, hsum]
          exact hinv.2 hnone
    · -- different peer: the query peer sees no change
      have hsum := dailyMonthSum_upsertDaily_other u.pid u.dayKey u.drx u.dtx db
        pid (K ++ "-") (by simp [hpid])
      have hdaily2 := dailyMonthSum_congr
        (upsertMonthly u.pid u.monthKey u.drx u.dtx (upsertDaily u.pid u.dayKey u.drx u.dtx db))
        (upsertDaily u.pid u.dayKey u.drx u.dtx db) pid (K ++ "-")
        (upsertMonthly_frame u.pid u.monthKey u.drx u.dtx _).2.1
      have hfm1 := findMonthly_congr (upsertDaily u.pid u.dayKey u.drx u.dtx db) db
        pid K (upsertDaily_frame u.pid u.dayKey u.drx u.dtx db).2.1
      have hfm2 := findMonthly_upsertMonthly_other u.pid u.monthKey u.drx u.dtx
        (upsertDaily u.pid u.dayKey u.drx u.dtx db) pid K (by simp [hpid])
      constructor
      · intro m hm2
        rw [hfm2, hfm1] at hm2
        rw [hdaily2, hsum]
        exact hinv.1 m hm2
      · intro hnone
        rw [hfm2, hfm1] at hnone
        rw [hdaily2, hsum]
        exact hinv.2 hnone
  · rw [if_neg hz]
    exact hinv

theorem RollInv_applyUpds (pid : Nat) (K : String) (us : List Upd) :
    ∀ db : DB, MonthCoherent K us → RollInv pid K db →
      RollInv pid K (applyUpds us db) := by
  induction us with
  | nil => intro db _ h; exact h
  | cons u us ih =>
      intro db hcoh hinv
      show RollInv pid K (applyUpds us (rollupUpd u.pid u.dayKey u.monthKey u.drx u.dtx db))
      exact ih _ (fun v hv => hcoh v (List.mem_cons_of_mem u hv))
        (RollInv_step pid K u db (hcoh u (List.mem_cons_self u us)) hinv)

/-- C8: on every rollup state reachable from empty tables through the
core's own rollup updates (with the day and month keys of each update
derived from the same instant), the monthly-row path and the daily-sum
path of `month_total_bytes` agree; and by construction the daily-sum
fallback is taken exactly when the peer's monthly row is absent. -/
theorem C8_month_total_paths_agree :
    (∀ (us : List Upd) (db0 : DB) (pid : Nat) (K : String),
      db0.daily = [] → db0.monthly = [] → MonthCoherent K us →
      month_total_bytes (applyUpds us db0) pid K (K ++ "-") =
        dailyMonthSum (applyUpds us db0) pid (K ++ "-"))
    ∧ (∀ (db : DB) (pid : Nat) (K mpfx : String) (m : UsageMonthly),
      findMonthly db pid K = some m →
      month_total_bytes db pid K mpfx = m.rx + m.tx)
    ∧ (∀ (db : DB) (pid : Nat) (K mpfx : String),
      findMonthly db pid K = none →
      month_total_bytes db pid K mpfx = dailyMonthSum db pid mpfx) := by
  refine ⟨?_, ?_, ?_⟩
  · intro us db0 pid K h1 h2 hcoh
    have hinv := RollInv_applyUpds pid K us db0 hcoh (RollInv_empty pid K db0 h1 h2)
    unfold month_total_bytes
    cases hm : findMonthly (applyUpds us db0) pid K with
    | none => rfl
    | some m => exact hinv.1 m hm
  · intro db pid K mpfx m h
    unfold month_total_bytes
    rw [h]
  · intro db pid K mpfx h
    unfold month_total_bytes
    rw [h]

/-- A concrete reachable rollup history: two peers, two months. -/
def c8Upds : List Upd :=
  [⟨1, "2025-01-05", "2025-01", 10, 20⟩,
   ⟨1, "2025-02-01", "2025-02", 7, 0⟩,
   ⟨2, "2025-01-05", "2025-01", 100, 0⟩,
   ⟨1, "2025-01-06", "2025-01", 5, 5⟩]

/-- Witness for C8: on the concrete history both month-total paths give
the same value for peer 1 in January 2025. -/
theorem C8_month_total_paths_agree_witness :
    month_total_bytes (applyUpds c8Upds exDB) 1 "2025-01" ("2025-01" ++ "-") =
      dailyMonthSum (applyUpds c8Upds exDB) 1 ("2025-01" ++ "-") := by
  refine C8_month_total_paths_agree.1 c8Upds exDB 1 "2025-01" rfl rfl ?_
  intro u hu
  simp only [c8Upds, List.mem_cons, List.not_mem_nil, or_false] at hu
  rcases hu with h | h | h | h <;> subst h <;> decide

end WgMik
